import Mathlib

/-!
Shallow embedding of particlepy (src/particlepy/__init__.py), a grid-based
falling-sand particle simulation over a bit-packed occupancy bitmap.

Modelling conventions:
* Positions and velocities are rationals.  The Python code mixes ints and
  floats, but every numeric value it produces is a dyadic rational
  (`bounce_scale = 0.5` is the only non-integer constant), so rational
  arithmetic is exact.
* Python `int(q)` (truncation toward zero) is `pyInt`.
* numpy bitmap indexing (negative indices wrap once; anything else raises
  `IndexError`) is `npIdx`; fallible operations return `Except PyError`.
* The bitmap is the numpy `uint32` word array, one `Nat` per word.
-/

/-- Errors raised by the Python code: the `ValueError` of the dimension
check in `Simulation.__init__`, numpy's `ValueError` for a negative
allocation size, and `IndexError` from out-of-range array indexing. -/
inductive PyError
  | configError
  | negativeDims
  | indexError
deriving DecidableEq, Repr

instance {ε α : Type} [DecidableEq ε] [DecidableEq α] : DecidableEq (Except ε α) :=
  fun a b =>
    match a, b with
    | .ok x, .ok y => if h : x = y then .isTrue (by rw [h]) else .isFalse (by simp [h])
    | .error x, .error y => if h : x = y then .isTrue (by rw [h]) else .isFalse (by simp [h])
    | .ok _, .error _ => .isFalse (by simp)
    | .error _, .ok _ => .isFalse (by simp)

/-- `GRID_MULTIPLIER` (source line 29): sub-cell units per grid cell. -/
def GRID_MULTIPLIER : ℚ := 256

/-- Python `int(q)` applied to a (dyadic) rational: truncation toward zero. -/
def pyInt (q : ℚ) : Int := q.num.tdiv q.den

/-- numpy indexing of a one-dimensional array of length `len` at integer
index `i`: indices in `[0, len)` are used directly, indices in `[-len, 0)`
wrap once from the end, everything else raises `IndexError`. -/
def npIdx (len : Nat) (i : Int) : Option Nat :=
  if 0 ≤ i ∧ i < (len : Int) then some i.toNat
  else if -(len : Int) ≤ i ∧ i < 0 then some (i + len).toNat
  else none

/-- `Simulation.get_pixel` (lines 89-93), with `self.bitmap` explicit:
`int` both coordinates, then return `bitmap[y] & (1 << (x % 32))`.
Note the word index is `y` alone: the column-word term is absent. -/
def get_pixel (bm : List Nat) (x y : ℚ) : Except PyError Nat :=
  match npIdx bm.length (pyInt y) with
  | none => .error .indexError
  | some w => .ok ((bm.getD w 0) &&& (1 <<< ((pyInt x) % 32).toNat))

/-- `Simulation.set_pixel` (lines 95-99): `bitmap[y] |= 1 << (x % 32)`. -/
def set_pixel (bm : List Nat) (x y : ℚ) : Except PyError (List Nat) :=
  match npIdx bm.length (pyInt y) with
  | none => .error .indexError
  | some w => .ok (bm.set w ((bm.getD w 0) ||| (1 <<< ((pyInt x) % 32).toNat)))

/-- `Simulation.clear_pixel` (lines 101-105): `bitmap[y] &= ~(1 << (x % 32))`,
on 32-bit words. -/
def clear_pixel (bm : List Nat) (x y : ℚ) : Except PyError (List Nat) :=
  match npIdx bm.length (pyInt y) with
  | none => .error .indexError
  | some w => .ok (bm.set w ((bm.getD w 0) &&& (4294967295 ^^^ (1 <<< ((pyInt x) % 32).toNat))))

/-- The `Particle` dataclass (lines 32-46): position and velocity in
sub-cell units plus a color tuple `c`. -/
structure Particle where
  x : ℚ
  y : ℚ
  vx : ℚ
  vy : ℚ
  c : ℚ × ℚ × ℚ
deriving DecidableEq, Repr

/-- The mutable state of a `Simulation` object (lines 49-78). -/
structure Simulation where
  gravity : ℚ × ℚ × ℚ
  width : Int
  height : Int
  pwidth : ℚ
  pheight : ℚ
  grav_scale : ℚ
  bounce_scale : ℚ
  simtime : Nat
  bitmap : List Nat
  particles : List Particle
deriving DecidableEq, Repr

/-- The color argument that `init_particles` (line 83) fails to pass:
`Particle(x * GRID_MULTIPLIER, y * GRID_MULTIPLIER, 0, 0)` supplies only
four of the five required dataclass fields, so running the source raises
`TypeError` there.  The model supplies this fixed tuple in its place so
that the remainder of the engine is statable; the omission itself is
recorded against claim C1. -/
def defaultColor : ℚ × ℚ × ℚ := (0, 0, 0)

/-- `Simulation.add_particle` (lines 85-87): append, then mark the bitmap
at `(x / GRID_MULTIPLIER, y / GRID_MULTIPLIER)`. -/
def add_particle (s : Simulation) (p : Particle) : Except PyError Simulation :=
  let s1 := { s with particles := s.particles ++ [p] }
  match set_pixel s1.bitmap (p.x / GRID_MULTIPLIER) (p.y / GRID_MULTIPLIER) with
  | .error e => .error e
  | .ok bm => .ok { s1 with bitmap := bm }

/-- The seeding loop bounds of `init_particles` (lines 80-83):
`for x in range(32): for y in range(2)`, in that order.  The column range
is the literal constant 32, not the grid width. -/
def seedCells : List (Int × Int) :=
  (List.range 32).flatMap (fun x => [((x : Int), 0), ((x : Int), 1)])

/-- The particle constructed for seed cell `c` (line 83):
`Particle(x * GRID_MULTIPLIER, y * GRID_MULTIPLIER, 0, 0)`, with the
color the source fails to pass filled by `defaultColor`. -/
def seedParticle (c : Int × Int) : Particle :=
  Particle.mk ((c.1 : ℚ) * GRID_MULTIPLIER) ((c.2 : ℚ) * GRID_MULTIPLIER) 0 0 defaultColor

/-- Sequentially add one seeded particle per listed cell. -/
def addSeeds (s : Simulation) : List (Int × Int) → Except PyError Simulation
  | [] => .ok s
  | c :: rest =>
    match add_particle s (seedParticle c) with
    | .error e => .error e
    | .ok s1 => addSeeds s1 rest

/-- `Simulation.init_particles` (lines 80-83). -/
def init_particles (s : Simulation) : Except PyError Simulation :=
  addSeeds s seedCells

/-- `Simulation.__init__` (lines 50-78), the spec's `create`: reject
dimensions not divisible by 32 (Python `%`, so sign is ignored), allocate
`int(height * (width / 32))` bitmap words (the division is exact after the
check; a negative size raises in `numpy.zeros`), and seed the particles. -/
def create (width height : Int) : Except PyError Simulation :=
  if width % 32 ≠ 0 ∨ height % 32 ≠ 0 then .error .configError
  else
    let size : Int := height * (width / 32)
    if size < 0 then .error .negativeDims
    else
      init_particles
        { gravity := (0, 0, 0)
          width := width
          height := height
          pwidth := (width : ℚ) * GRID_MULTIPLIER - GRID_MULTIPLIER
          pheight := (height : ℚ) * GRID_MULTIPLIER - GRID_MULTIPLIER
          grav_scale := 1
          bounce_scale := 1/2
          simtime := 0
          bitmap := List.replicate size.toNat 0
          particles := [] }

/-- Python builtin `max` on two rationals. -/
def pyMax (a b : ℚ) : ℚ := if a ≤ b then b else a

/-- Python builtin `min` on two rationals. -/
def pyMin (a b : ℚ) : ℚ := if b ≤ a then b else a

/-- Python builtin `abs` on a rational. -/
def pyAbs (q : ℚ) : ℚ := if q < 0 then -q else q

/-- Python builtin `abs` on an integer. -/
def pyAbsI (n : Int) : Int := if n < 0 then -n else n

/-- The local helper `bounce` of `tick` (line 147): `(-n) * bounce_scale`. -/
def bounce (bs : ℚ) (n : ℚ) : ℚ := (-n) * bs

/-- One axis of the out-of-bounds clamp of `tick` (lines 154-172): given the
candidate coordinate `n` and current velocity `v`, return the clamped
coordinate and possibly bounced velocity. -/
def clampAxis (bs pw n v : ℚ) : ℚ × ℚ :=
  if n < 0 then (0, bounce bs v)
  else if pw ≤ n then (pw, bounce bs v)
  else (n, v)

/-- The collision-detection block of `tick` (lines 180-224): `x, y` are the
particle's current position, `nx, ny` the bounds-clamped candidate
position, `vx, vy` the current (possibly boundary-bounced) velocity, and
`oidx, nidx` the combined cell indices.  Returns the final
`(nx, ny, vx, vy)` that the move step commits. -/
def resolveCollision (width : Int) (bs : ℚ) (bm : List Nat)
    (x y nx ny vx vy : ℚ) (oidx nidx : Int) : Except PyError (ℚ × ℚ × ℚ × ℚ) :=
  if oidx ≠ nidx then
    match get_pixel bm (nx / GRID_MULTIPLIER) (ny / GRID_MULTIPLIER) with
    | .error e => .error e
    | .ok occ =>
      if occ ≠ 0 then
        let d : Int := pyAbsI (nidx - oidx)
        if d = 1 then
          .ok (x, ny, bounce bs vx, vy)
        else if d = width then
          .ok (nx, y, vx, bounce bs vy)
        else if pyAbs vy ≤ pyAbs vx then
          match get_pixel bm (nx / GRID_MULTIPLIER) (y / GRID_MULTIPLIER) with
          | .error e => .error e
          | .ok c1 =>
            if c1 = 0 then
              .ok (nx, y, vx, bounce bs vy)
            else
              match get_pixel bm (x / GRID_MULTIPLIER) (ny / GRID_MULTIPLIER) with
              | .error e => .error e
              | .ok c2 =>
                if c2 = 0 then
                  .ok (x, ny, bounce bs vx, vy)
                else
                  .ok (x, y, bounce bs vx, bounce bs vy)
        else
          match get_pixel bm (x / GRID_MULTIPLIER) (ny / GRID_MULTIPLIER) with
          | .error e => .error e
          | .ok c1 =>
            if c1 = 0 then
              .ok (x, ny, bounce bs vx, vy)
            else
              match get_pixel bm (nx / GRID_MULTIPLIER) (y / GRID_MULTIPLIER) with
              | .error e => .error e
              | .ok c2 =>
                if c2 = 0 then
                  .ok (nx, y, vx, bounce bs vy)
                else
                  .ok (x, y, bounce bs vx, bounce bs vy)
      else
        .ok (nx, ny, vx, vy)
  else
    .ok (nx, ny, vx, vy)

/-- The body of the position loop of `tick` (lines 149-231) for a single
particle: candidate position, bounds clamp, collision resolution, then
unconditionally clear the old cell and set the new one. -/
def posStep (width : Int) (pw ph bs : ℚ) (bm : List Nat) (p : Particle) :
    Except PyError (Particle × List Nat) :=
  let a := clampAxis bs pw (p.x + p.vx) p.vx
  let b := clampAxis bs ph (p.y + p.vy) p.vy
  let oidx := pyInt (p.y / GRID_MULTIPLIER) * width + pyInt (p.x / GRID_MULTIPLIER)
  let nidx := pyInt (b.1 / GRID_MULTIPLIER) * width + pyInt (a.1 / GRID_MULTIPLIER)
  match resolveCollision width bs bm p.x p.y a.1 b.1 a.2 b.2 oidx nidx with
  | .error e => .error e
  | .ok r =>
    match clear_pixel bm (p.x / GRID_MULTIPLIER) (p.y / GRID_MULTIPLIER) with
    | .error e => .error e
    | .ok bm1 =>
      let p2 : Particle := { x := r.1, y := r.2.1, vx := r.2.2.1, vy := r.2.2.2, c := p.c }
      match set_pixel bm1 (p2.x / GRID_MULTIPLIER) (p2.y / GRID_MULTIPLIER) with
      | .error e => .error e
      | .ok bm2 => .ok (p2, bm2)

/-- The position loop of `tick` over the particle list, sequentially:
later particles observe the bitmap already mutated by earlier ones. -/
def posList (width : Int) (pw ph bs : ℚ) (bm : List Nat) :
    List Particle → Except PyError (List Particle × List Nat)
  | [] => .ok ([], bm)
  | p :: rest =>
    match posStep width pw ph bs bm p with
    | .error e => .error e
    | .ok r =>
      match posList width pw ph bs r.2 rest with
      | .error e => .error e
      | .ok r2 => .ok (r.1 :: r2.1, r2.2)

/-- The velocity update of `tick` (lines 132-141) for one particle, with
the two `random.randint(0, raz)` draws passed in as `jx, jy`:
accelerate, jitter, then clamp each component to
`[-GRID_MULTIPLIER, GRID_MULTIPLIER]`. -/
def velUpdate (ax ay : ℚ) (jx jy : Int) (p : Particle) : Particle :=
  { p with
    vx := pyMax (pyMin (p.vx + ax + (jx : ℚ)) GRID_MULTIPLIER) (-GRID_MULTIPLIER)
    vy := pyMax (pyMin (p.vy + ay + (jy : ℚ)) GRID_MULTIPLIER) (-GRID_MULTIPLIER) }

/-- The velocity loop of `tick`, consuming one `(jx i, jy i)` draw pair per
particle in list order. -/
def velList (ax ay : ℚ) (jx jy : Nat → Int) (i : Nat) :
    List Particle → List Particle
  | [] => []
  | p :: rest => velUpdate ax ay (jx i) (jy i) p :: velList ax ay jx jy (i + 1) rest

/-- The per-tick jitter ceiling `raz = abs(gravity[2]*grav_scale)/8 * 2.5`
(lines 122-127); each random draw is uniform over `[0, raz]`. -/
def raz (s : Simulation) : ℚ := pyAbs (s.gravity.2.2 * s.grav_scale) / 8 * (5/2)

/-- `Simulation.tick` (lines 107-231), with the random draws supplied by
the oracles `jx, jy` (draw `i` belongs to particle `i`): bump `simtime`,
derive the accelerations, run the velocity pass, then the position pass. -/
def tick (s : Simulation) (jx jy : Nat → Int) : Except PyError Simulation :=
  let s1 := { s with simtime := s.simtime + 1 }
  let az := pyAbs (s1.gravity.2.2 * s1.grav_scale) / 8
  let ax := s1.gravity.1 * s1.grav_scale - az
  let ay := s1.gravity.2.1 * s1.grav_scale - az
  let ps := velList ax ay jx jy 0 s1.particles
  match posList s1.width s1.pwidth s1.pheight s1.bounce_scale s1.bitmap ps with
  | .error e => .error e
  | .ok r => .ok { s1 with particles := r.1, bitmap := r.2 }

/-- An engine run: create, then on tick `n` first let the host store
gravity `G n` (the spec's `setGravity`, freely mutable between ticks) and
run `tick` with the jitter draws `JX n, JY n`. -/
def iterSim (w h : Int) (G : Nat → ℚ × ℚ × ℚ) (JX JY : Nat → Nat → Int) :
    Nat → Except PyError Simulation
  | 0 => create w h
  | n + 1 =>
    match iterSim w h G JX JY n with
    | .error e => .error e
    | .ok s => tick { s with gravity := G n } (JX n) (JY n)

/-- Extract the state from a successful run (used to name concrete
engine states without spelling them out). -/
def okOr (e : Except PyError Simulation) (d : Simulation) : Simulation :=
  match e with
  | .ok s => s
  | .error _ => d

/-- A placeholder state for `okOr`. -/
def dfltSim : Simulation :=
  { gravity := (0, 0, 0), width := 0, height := 0, pwidth := 0, pheight := 0
    grav_scale := 1, bounce_scale := 1/2, simtime := 0, bitmap := [], particles := [] }

/-- The cell coordinates of a particle, exactly as the source computes
them: `int(x / GRID_MULTIPLIER), int(y / GRID_MULTIPLIER)`. -/
def cellOf (p : Particle) : Int × Int :=
  (pyInt (p.x / GRID_MULTIPLIER), pyInt (p.y / GRID_MULTIPLIER))

/-- How many particles of the list currently occupy cell `c`. -/
def occCount (ps : List Particle) (c : Int × Int) : Nat :=
  ps.countP (fun p => decide (cellOf p = c))

/-- The bit the 32-wide addressing stores for cell `c`: bit `c.1` of word
`c.2` (for width 32 this agrees with `get_pixel` on in-range cells). -/
def cellSet (bm : List Nat) (c : Int × Int) : Bool :=
  (bm.getD c.2.toNat 0).testBit c.1.toNat

/-- Particle position bounds: inside `[0, pwidth] × [0, pheight]`. -/
def inBounds (pw ph : ℚ) (p : Particle) : Prop :=
  0 ≤ p.x ∧ p.x ≤ pw ∧ 0 ≤ p.y ∧ p.y ≤ ph

/-- The zero jitter oracle (what `random.randint(0, 0)` returns). -/
def zeroJ : Nat → Int := fun _ => 0

/-- The constant zero-gravity host (`gravity` left at its default). -/
def zeroG : Nat → ℚ × ℚ × ℚ := fun _ => (0, 0, 0)

/-- The spec's §8 scenario for claim C6: a 32×32 engine holding a single
particle at cell `(5, 5)` (position `(1280, 1280)`) with `vx = 300`, and
the bitmap marking both its own cell and the occupied neighbor `(6, 5)`. -/
def scenarioC6 : Simulation :=
  { gravity := (0, 0, 0), width := 32, height := 32
    pwidth := 7936, pheight := 7936
    grav_scale := 1, bounce_scale := 1/2, simtime := 0
    bitmap := (List.replicate 32 0).set 5 ((1 <<< 5) ||| (1 <<< 6))
    particles := [Particle.mk 1280 1280 300 0 defaultColor] }

/-- Velocity bound established by the clamp of the velocity pass. -/
def velBound (p : Particle) : Prop :=
  |p.vx| ≤ GRID_MULTIPLIER ∧ |p.vy| ≤ GRID_MULTIPLIER

/-- The bounds part of the engine invariant, for an engine advertising
grid dimensions `w × h`: the derived fields have their constructor
values, the bitmap is long enough for the row indexing, and every
particle is in bounds with clamped velocity. -/
def BInv (w h : Int) (s : Simulation) : Prop :=
  s.width = w ∧ s.height = h ∧
  s.pwidth = (w : ℚ) * GRID_MULTIPLIER - GRID_MULTIPLIER ∧
  s.pheight = (h : ℚ) * GRID_MULTIPLIER - GRID_MULTIPLIER ∧
  s.bounce_scale = 1/2 ∧
  h ≤ (s.bitmap.length : Int) ∧
  ∀ p ∈ s.particles, inBounds s.pwidth s.pheight p ∧ velBound p

/-- Cell coordinates lying inside a 32-wide, `h`-tall grid. -/
def inGrid (h : Int) (c : Int × Int) : Prop :=
  0 ≤ c.1 ∧ c.1 < 32 ∧ 0 ≤ c.2 ∧ c.2 < h

/-- The occupancy relation for a 32-wide grid: an in-grid cell's bit is
set exactly when one particle occupies the cell, and no cell holds two. -/
def BitRel (h : Int) (bm : List Nat) (ps : List Particle) : Prop :=
  ∀ c : Int × Int, inGrid h c →
    (cellSet bm c = true ↔ occCount ps c = 1) ∧ occCount ps c ≤ 1

/-- Full invariant of a width-32 engine. -/
def Inv32 (h : Int) (s : Simulation) : Prop :=
  BInv 32 h s ∧ (∀ w ∈ s.bitmap, w < 4294967296) ∧
  BitRel h s.bitmap s.particles

/-- A quiescent zero-gravity state: all velocities zero, all particles in
bounds with their own bitmap bit set (through the source's row-addressed
`get_pixel` view), all words 32-bit.  `tick` fixes such states up to the
`simtime` counter. -/
def Settled (s : Simulation) : Prop :=
  s.gravity = (0, 0, 0) ∧
  (∀ w ∈ s.bitmap, w < 4294967296) ∧
  ∀ p ∈ s.particles, p.vx = 0 ∧ p.vy = 0 ∧ inBounds s.pwidth s.pheight p ∧
    0 ≤ pyInt (p.y / GRID_MULTIPLIER) ∧
    pyInt (p.y / GRID_MULTIPLIER) < s.bitmap.length ∧
    (s.bitmap.getD (pyInt (p.y / GRID_MULTIPLIER)).toNat 0).testBit
      ((pyInt (p.x / GRID_MULTIPLIER)) % 32).toNat = true

instance (s : Simulation) : Decidable (Settled s) := by
  unfold Settled inBounds
  infer_instance

/-- Modelled from the spec (§4.3 step e, diagonal case), for comparison
with `resolveCollision`: pick the dominant axis as whichever of
`abs vx, abs vy` is larger, ties favoring x; try sliding along the
dominant axis alone, then along the other axis alone, and if both
single-axis cells are occupied revert both position components and bounce
both velocity components. -/
def specDiagonal (bs : ℚ) (bm : List Nat) (x y nx ny vx vy : ℚ) :
    Except PyError (ℚ × ℚ × ℚ × ℚ) :=
  if pyAbs vx ≥ pyAbs vy then
    match get_pixel bm (nx / GRID_MULTIPLIER) (y / GRID_MULTIPLIER) with
    | .error e => .error e
    | .ok alongX =>
      if alongX = 0 then
        .ok (nx, y, vx, bounce bs vy)
      else
        match get_pixel bm (x / GRID_MULTIPLIER) (ny / GRID_MULTIPLIER) with
        | .error e => .error e
        | .ok alongY =>
          if alongY = 0 then
            .ok (x, ny, bounce bs vx, vy)
          else
            .ok (x, y, bounce bs vx, bounce bs vy)
  else
    match get_pixel bm (x / GRID_MULTIPLIER) (ny / GRID_MULTIPLIER) with
    | .error e => .error e
    | .ok alongY =>
      if alongY = 0 then
        .ok (x, ny, bounce bs vx, vy)
      else
        match get_pixel bm (nx / GRID_MULTIPLIER) (y / GRID_MULTIPLIER) with
        | .error e => .error e
        | .ok alongX =>
          if alongX = 0 then
            .ok (nx, y, vx, bounce bs vy)
          else
            .ok (x, y, bounce bs vx, bounce bs vy)

/-! ## Basic lemmas -/

theorem okOr_eq_ok (e : Except PyError Simulation) (d : Simulation)
    (h : e.isOk = true) : e = Except.ok (okOr e d) := by
  cases e with
  | ok s => rfl
  | error x => simp [Except.isOk, Except.toBool] at h

theorem pyInt_intCast (n : Int) : pyInt ((n : ℚ)) = n := by
  simp [pyInt, Int.tdiv_one]

theorem pyInt_eq_floor {q : ℚ} (h : 0 ≤ q) : pyInt q = ⌊q⌋ := by
  unfold pyInt
  rw [Rat.floor_def]
  exact Int.tdiv_eq_ediv (Rat.num_nonneg.mpr h) (Int.ofNat_nonneg _)

theorem set_pixel_error {bm : List Nat} {x y : ℚ} {e : PyError}
    (h : set_pixel bm x y = Except.error e) : e = PyError.indexError := by
  unfold set_pixel at h
  split at h
  · exact (Except.error.inj h).symm
  · simp at h

theorem add_particle_error {s : Simulation} {p : Particle} {e : PyError}
    (h : add_particle s p = Except.error e) : e = PyError.indexError := by
  simp only [add_particle] at h
  split at h
  · rename_i e' heq
    obtain rfl := Except.error.inj h
    exact set_pixel_error heq
  · simp at h

theorem addSeeds_error {L : List (Int × Int)} {s : Simulation} {e : PyError}
    (h : addSeeds s L = Except.error e) : e = PyError.indexError := by
  induction L generalizing s with
  | nil => simp [addSeeds] at h
  | cons c rest ih =>
    unfold addSeeds at h
    split at h
    · rename_i e' heq
      obtain rfl := Except.error.inj h
      exact add_particle_error heq
    · rename_i s1 heq
      exact ih h

/-! ## Claim C1 -/

/-- C1 (code defect at the seeding loop): a width-64 engine is seeded
with 64 particles — the hard-coded `range(32)` loop — not one per cell
across the full grid width, which would be `2 * 64 = 128`.  (In addition,
the literal source cannot seed at all: the `Particle(...)` call omits the
required color field, a `TypeError`; the model fills it with
`defaultColor`.) -/
theorem C1_seeding_not_full_width :
    (create 64 32).isOk = true ∧
    (okOr (create 64 32) dfltSim).particles.length = 64 ∧
    (okOr (create 64 32) dfltSim).particles.length ≠ 2 * 64 :=
  of_decide_eq_true (by with_unfolding_all rfl)

/-! ## Claim C2 -/

/-- C2 (code defect, the spec §9 divergence): on a 64-wide grid (64
bitmap words for 32 rows), the operations address the word by the row
index alone, omitting the `cellX / 32` column-word term.  Hence cell
`(32, 0)` reads as clear on the empty bitmap, but after setting only cell
`(0, 0)` it reads as set: `set` of one in-range cell changed `get` of
another, which the generalized addressing
`word = cellY * (width/32) + cellX/32` forbids. -/
theorem C2_rowonly_word_addressing :
    get_pixel (List.replicate 64 0) 32 0 = Except.ok 0 ∧
    set_pixel (List.replicate 64 0) 0 0 = Except.ok ((List.replicate 64 0).set 0 1) ∧
    get_pixel ((List.replicate 64 0).set 0 1) 32 0 = Except.ok 1 :=
  of_decide_eq_true (by with_unfolding_all rfl)

/-! ## Claim C3 (counterexample part) -/

/-- C3 counterexample: on the freshly created 64-wide engine the bitmap
cell `(32, 0)` reads as set through `get_pixel` even though no particle
has cell coordinates `(32, 0)` — the claimed bijection fails for widths
other than 32 already at construction. -/
theorem C3_counterexample_width64 :
    (create 64 32).isOk = true ∧
    get_pixel (okOr (create 64 32) dfltSim).bitmap 32 0 = Except.ok 1 ∧
    occCount (okOr (create 64 32) dfltSim).particles (32, 0) = 0 :=
  of_decide_eq_true (by with_unfolding_all rfl)

/-! ## Claim C7 -/

/-- C7 counterexample: the dimensions `(-32, -32)` are not positive
multiples of 32, yet `create` raises no configuration error — it returns
an engine; and `create 0 32` fails with an index error, not the
configuration error. -/
theorem C7_counterexample :
    (create (-32) (-32)).isOk = true ∧
    create 0 32 = Except.error PyError.indexError :=
  of_decide_eq_true (by with_unfolding_all rfl)

/-- C7 amended: `create` fails with the configuration error iff a
dimension is not divisible by 32 under Python's `%` (sign ignored);
positivity is never checked.  A zero or negative multiple of 32 passes
validation and either fails later with a different error or succeeds. -/
theorem C7_config_error_iff_not_divisible (w h : Int) :
    create w h = Except.error PyError.configError ↔ ¬(w % 32 = 0 ∧ h % 32 = 0) := by
  constructor
  · intro hc hdvd
    obtain ⟨hw, hh⟩ := hdvd
    unfold create at hc
    rw [if_neg (by push_neg; exact ⟨hw, hh⟩)] at hc
    by_cases hsz : h * (w / 32) < 0
    · simp only [if_pos hsz] at hc
      exact absurd (Except.error.inj hc).symm (by simp)
    · simp only [if_neg hsz] at hc
      unfold init_particles at hc
      exact absurd (addSeeds_error hc) (by simp)
  · intro hn
    unfold create
    rw [if_pos]
    rcases Decidable.em (w % 32 = 0) with h1 | h1
    · right
      intro h2
      exact hn ⟨h1, h2⟩
    · left
      exact h1

/-! ## Claim C8 -/

/-- C8 counterexample: on the seeded 32×32 engine the access
`get_pixel(32, 0)` has `cellX = 32` outside `[0, width)`, yet it does not
abort: it succeeds and silently returns cell `(0, 0)`'s (set) bit. -/
theorem C8_counterexample :
    (create 32 32).isOk = true ∧
    get_pixel (okOr (create 32 32) dfltSim).bitmap 32 0 = Except.ok 1 :=
  of_decide_eq_true (by with_unfolding_all rfl)

/-- C8 amended: only a word-index (row) overflow is fatal — `get`, `set`
and `clear` raise an index error exactly when the `int`-truncated y
coordinate falls outside numpy's accepted range `[-rows, rows)`.  An
out-of-range x coordinate is never fatal: the bit index is reduced
mod 32, so the access silently aliases the cell 32 columns away. -/
theorem C8_fatal_only_for_row_overflow :
    (∀ (bm : List Nat) (x : ℚ) (y : Int),
      ((bm.length : Int) ≤ y ∨ y < -(bm.length : Int)) →
      get_pixel bm x (y : ℚ) = Except.error PyError.indexError ∧
      set_pixel bm x (y : ℚ) = Except.error PyError.indexError ∧
      clear_pixel bm x (y : ℚ) = Except.error PyError.indexError) ∧
    (∀ (bm : List Nat) (xc y : Int),
      get_pixel bm ((xc + 32 : Int) : ℚ) (y : ℚ) = get_pixel bm (xc : ℚ) (y : ℚ) ∧
      set_pixel bm ((xc + 32 : Int) : ℚ) (y : ℚ) = set_pixel bm (xc : ℚ) (y : ℚ)) := by
  constructor
  · intro bm x y hy
    have hnone : npIdx bm.length (pyInt (y : ℚ)) = none := by
      rw [pyInt_intCast]
      unfold npIdx
      rw [if_neg (by omega), if_neg (by omega)]
    refine ⟨?_, ?_, ?_⟩
    · unfold get_pixel
      rw [hnone]
    · unfold set_pixel
      rw [hnone]
    · unfold clear_pixel
      rw [hnone]
  · intro bm xc y
    have hmod : pyInt ((xc + 32 : Int) : ℚ) % 32 = pyInt ((xc : Int) : ℚ) % 32 := by
      rw [pyInt_intCast, pyInt_intCast]
      omega
    constructor
    · unfold get_pixel
      rw [hmod]
    · unfold set_pixel
      rw [hmod]

/-- C8 witness: a one-word bitmap accessed at row 1 is fatal, and
`get_pixel` at `cellX = 33` equals `get_pixel` at `cellX = 1`. -/
theorem C8_fatal_only_for_row_overflow_witness :
    get_pixel [0] 0 ((1 : Int) : ℚ) = Except.error PyError.indexError ∧
    get_pixel [0] ((33 : Int) : ℚ) ((0 : Int) : ℚ) = get_pixel [0] ((1 : Int) : ℚ) ((0 : Int) : ℚ) :=
  ⟨(C8_fatal_only_for_row_overflow.1 [0] 0 1 (by norm_num)).1,
   (C8_fatal_only_for_row_overflow.2 [0] 1 0).1⟩

/-! ## Claim C10 -/

/-- C10 counterexample: `add_particle` is not failure-free for every
particle argument — a particle whose cell row is 32 on a 32-row engine
makes the underlying bitmap write raise an index error. -/
theorem C10_counterexample :
    add_particle (okOr (create 32 32) dfltSim) (Particle.mk 0 8192 0 0 defaultColor)
      = Except.error PyError.indexError :=
  of_decide_eq_true (by with_unfolding_all rfl)

/-- C10 amended: `add_particle` performs no occupancy or bounds
validation.  Whenever the particle's cell row is inside the bitmap,
it unconditionally appends the particle and ORs its cell bit into the
bitmap — in particular (second and third conjuncts) adding a particle at
the already-occupied cell `(0, 0)` of the seeded 32×32 engine yields two
particles in that cell sharing the single set bit, breaking the
one-particle-per-cell correspondence.  Only a cell row outside numpy's
index range makes the write fail. -/
theorem C10_add_particle_unvalidated :
    (∀ (s : Simulation) (p : Particle),
      0 ≤ pyInt (p.y / GRID_MULTIPLIER) →
      pyInt (p.y / GRID_MULTIPLIER) < (s.bitmap.length : Int) →
      add_particle s p = Except.ok ({ s with particles := s.particles ++ [p], bitmap := s.bitmap.set (pyInt (p.y / GRID_MULTIPLIER)).toNat ((s.bitmap.getD (pyInt (p.y / GRID_MULTIPLIER)).toNat 0) ||| (1 <<< ((pyInt (p.x / GRID_MULTIPLIER)) % 32).toNat)) })) ∧
    occCount (okOr (add_particle (okOr (create 32 32) dfltSim) (Particle.mk 0 0 0 0 defaultColor)) dfltSim).particles (0, 0) = 2 ∧
    get_pixel (okOr (add_particle (okOr (create 32 32) dfltSim) (Particle.mk 0 0 0 0 defaultColor)) dfltSim).bitmap 0 0 = Except.ok 1 := by
  refine ⟨?_, of_decide_eq_true (by with_unfolding_all rfl)⟩
  intro s p h0 hlen
  have hsome : npIdx s.bitmap.length (pyInt (p.y / GRID_MULTIPLIER)) = some (pyInt (p.y / GRID_MULTIPLIER)).toNat := by
    unfold npIdx
    rw [if_pos ⟨h0, by simpa using hlen⟩]
  simp only [add_particle, set_pixel, hsome]

/-- C10 witness: adding a particle at cell `(0, 0)` to the C6 scenario
engine appends it and ORs bit 0 of word 0, with no validation. -/
theorem C10_add_particle_unvalidated_witness :
    add_particle scenarioC6 (Particle.mk 0 0 0 0 defaultColor)
      = Except.ok ({ scenarioC6 with particles := scenarioC6.particles ++ [Particle.mk 0 0 0 0 defaultColor], bitmap := scenarioC6.bitmap.set (pyInt ((Particle.mk 0 0 0 0 defaultColor).y / GRID_MULTIPLIER)).toNat ((scenarioC6.bitmap.getD (pyInt ((Particle.mk 0 0 0 0 defaultColor).y / GRID_MULTIPLIER)).toNat 0) ||| (1 <<< ((pyInt ((Particle.mk 0 0 0 0 defaultColor).x / GRID_MULTIPLIER)) % 32).toNat)) }) :=
  C10_add_particle_unvalidated.1 scenarioC6 (Particle.mk 0 0 0 0 defaultColor)
    (of_decide_eq_true (by with_unfolding_all rfl))
    (of_decide_eq_true (by with_unfolding_all rfl))

/-! ## Claim C6 -/

/-- C6: a pure single-cell horizontal move (`d == 1`) into an occupied
cell is always blocked: the committed x position is the pre-move x and
the committed vx is `bounce` of the approach velocity (first conjunct,
directly on the collision block of `tick`); and in the spec's concrete
scenario — particle at cell `(5,5)`, occupied neighbor `(6,5)`,
pre-clamp `vx = 300` — one whole tick clamps vx to 256, blocks the move,
leaves x at 1280 and sets `vx = -128 = bounce 0.5 256` (remaining
conjuncts). -/
theorem C6_d1_horizontal_block :
    (∀ (width : Int) (bs : ℚ) (bm : List Nat) (x y nx ny vx vy : ℚ) (oidx nidx : Int) (occ : Nat),
      oidx ≠ nidx →
      get_pixel bm (nx / GRID_MULTIPLIER) (ny / GRID_MULTIPLIER) = Except.ok occ →
      occ ≠ 0 →
      pyAbsI (nidx - oidx) = 1 →
      resolveCollision width bs bm x y nx ny vx vy oidx nidx = Except.ok (x, ny, bounce bs vx, vy)) ∧
    tick scenarioC6 zeroJ zeroJ = Except.ok ({ scenarioC6 with simtime := 1, particles := [Particle.mk 1280 1280 (-128) 0 defaultColor] }) ∧
    bounce (1/2 : ℚ) 256 = -128 := by
  refine ⟨?_, by with_unfolding_all rfl, by with_unfolding_all rfl⟩
  intro width bs bm x y nx ny vx vy oidx nidx occ hne hocc hocc0 hd
  simp only [resolveCollision, if_pos hne, hocc, if_pos hocc0, hd, if_pos rfl, if_true]

/-- C6 witness: the first conjunct applied to the scenario's own collision
block: approaching cell `(6,5)` from `(5,5)` with clamped `vx = 256`. -/
theorem C6_d1_horizontal_block_witness :
    resolveCollision 32 (1/2) scenarioC6.bitmap 1280 1280 1536 1280 256 0 165 166
      = Except.ok (1280, 1280, bounce (1/2) 256, 0) :=
  C6_d1_horizontal_block.1 32 (1/2) scenarioC6.bitmap 1280 1280 1536 1280 256 0 165 166 64
    (by decide)
    (by with_unfolding_all rfl)
    (by decide)
    (by decide)

/-! ## Claim C5 -/

theorem diag_abs_facts (w dd : Int) (hw : 3 ≤ w)
    (h : dd = w + 1 ∨ dd = w - 1 ∨ dd = -w + 1 ∨ dd = -w - 1) :
    dd ≠ 0 ∧ ¬(pyAbsI dd = 1) ∧ ¬(pyAbsI dd = w) := by
  have habs : pyAbsI dd = w + 1 ∨ pyAbsI dd = w - 1 := by
    unfold pyAbsI
    rcases h with h | h | h | h <;> subst h
    · left
      rw [if_neg (by omega)]
    · right
      rw [if_neg (by omega)]
    · right
      rw [if_pos (by omega)]
      ring
    · left
      rw [if_pos (by omega)]
      ring
  exact ⟨by omega, by omega, by omega⟩

/-- C5: on a diagonal candidate move (both cell coordinates change by one)
into an occupied destination cell, the collision block of `tick` computes
exactly the spec's resolution: dominant axis by larger velocity magnitude
with ties to x, slide along the dominant axis if its single-axis cell is
free, else along the other axis, else revert both and bounce both.
(`specDiagonal` is the spec's §4.3 step (e) description verbatim;
`oidx`/`nidx` are passed in the exact form `posStep` computes them.) -/
theorem C5_diagonal_matches_spec :
    ∀ (width : Int) (bs : ℚ) (bm : List Nat) (x y nx ny vx vy : ℚ) (occ : Nat),
      3 ≤ width →
      (pyInt (nx / GRID_MULTIPLIER) - pyInt (x / GRID_MULTIPLIER) = 1 ∨
       pyInt (nx / GRID_MULTIPLIER) - pyInt (x / GRID_MULTIPLIER) = -1) →
      (pyInt (ny / GRID_MULTIPLIER) - pyInt (y / GRID_MULTIPLIER) = 1 ∨
       pyInt (ny / GRID_MULTIPLIER) - pyInt (y / GRID_MULTIPLIER) = -1) →
      get_pixel bm (nx / GRID_MULTIPLIER) (ny / GRID_MULTIPLIER) = Except.ok occ →
      occ ≠ 0 →
      resolveCollision width bs bm x y nx ny vx vy
          (pyInt (y / GRID_MULTIPLIER) * width + pyInt (x / GRID_MULTIPLIER))
          (pyInt (ny / GRID_MULTIPLIER) * width + pyInt (nx / GRID_MULTIPLIER))
        = specDiagonal bs bm x y nx ny vx vy := by
  intro width bs bm x y nx ny vx vy occ hw hdx hdy hocc hocc0
  have key : (pyInt (ny / GRID_MULTIPLIER) * width + pyInt (nx / GRID_MULTIPLIER))
      - (pyInt (y / GRID_MULTIPLIER) * width + pyInt (x / GRID_MULTIPLIER))
      = (pyInt (ny / GRID_MULTIPLIER) - pyInt (y / GRID_MULTIPLIER)) * width
        + (pyInt (nx / GRID_MULTIPLIER) - pyInt (x / GRID_MULTIPLIER)) := by
    ring
  have hcases : (pyInt (ny / GRID_MULTIPLIER) * width + pyInt (nx / GRID_MULTIPLIER))
      - (pyInt (y / GRID_MULTIPLIER) * width + pyInt (x / GRID_MULTIPLIER)) = width + 1 ∨
      (pyInt (ny / GRID_MULTIPLIER) * width + pyInt (nx / GRID_MULTIPLIER))
      - (pyInt (y / GRID_MULTIPLIER) * width + pyInt (x / GRID_MULTIPLIER)) = width - 1 ∨
      (pyInt (ny / GRID_MULTIPLIER) * width + pyInt (nx / GRID_MULTIPLIER))
      - (pyInt (y / GRID_MULTIPLIER) * width + pyInt (x / GRID_MULTIPLIER)) = -width + 1 ∨
      (pyInt (ny / GRID_MULTIPLIER) * width + pyInt (nx / GRID_MULTIPLIER))
      - (pyInt (y / GRID_MULTIPLIER) * width + pyInt (x / GRID_MULTIPLIER)) = -width - 1 := by
    rcases hdx with h1 | h1 <;> rcases hdy with h2 | h2
    · left
      rw [key, h1, h2]
      ring
    · right; right; left
      rw [key, h1, h2]
      ring
    · right; left
      rw [key, h1, h2]
      ring
    · right; right; right
      rw [key, h1, h2]
      ring
  obtain ⟨hne0, hd1, hdw⟩ := diag_abs_facts width _ hw hcases
  have hne : pyInt (y / GRID_MULTIPLIER) * width + pyInt (x / GRID_MULTIPLIER)
      ≠ pyInt (ny / GRID_MULTIPLIER) * width + pyInt (nx / GRID_MULTIPLIER) := by
    omega
  simp only [resolveCollision, specDiagonal, if_pos hne, hocc, if_pos hocc0, if_neg hd1,
    if_neg hdw, ge_iff_le]

/-- C5 witness: a concrete diagonal collision on the 32-wide grid —
particle at `(1500, 1500)` (cell `(5,5)`), velocities `(200, 100)`,
candidate `(1700, 1600)` (cell `(6,6)`), destination occupied. -/
theorem C5_diagonal_matches_spec_witness :
    resolveCollision 32 (1/2) ((List.replicate 32 0).set 6 (1 <<< 6)) 1500 1500 1700 1600 200 100 165 198
      = specDiagonal (1/2) ((List.replicate 32 0).set 6 (1 <<< 6)) 1500 1500 1700 1600 200 100 := by
  have h := C5_diagonal_matches_spec 32 (1/2) ((List.replicate 32 0).set 6 (1 <<< 6))
    1500 1500 1700 1600 200 100 64
    (by decide)
    (Or.inl (by with_unfolding_all rfl))
    (Or.inl (by with_unfolding_all rfl))
    (by with_unfolding_all rfl)
    (by decide)
  have h165 : pyInt ((1500 : ℚ) / GRID_MULTIPLIER) * 32 + pyInt ((1500 : ℚ) / GRID_MULTIPLIER) = 165 := by
    with_unfolding_all rfl
  have h198 : pyInt ((1600 : ℚ) / GRID_MULTIPLIER) * 32 + pyInt ((1700 : ℚ) / GRID_MULTIPLIER) = 198 := by
    with_unfolding_all rfl
  rw [h165, h198] at h
  exact h

/-! ## Claim C9 -/

theorem list_set_getD_self (l : List Nat) (i : Nat) (h : i < l.length) :
    l.set i (l.getD i 0) = l := by
  apply List.ext_getElem?
  intro j
  rw [List.getElem?_set]
  by_cases hij : i = j
  · subst hij
    rw [if_pos rfl, if_pos h, List.getD_eq_getElem l 0 h, List.getElem?_eq_getElem h]
  · rw [if_neg hij]

theorem clear_then_set_self {w b : Nat} (hw : w < 4294967296)
    (hset : w.testBit b = true) :
    (w &&& (4294967295 ^^^ (1 <<< b))) ||| (1 <<< b) = w := by
  apply Nat.eq_of_testBit_eq
  intro j
  rw [Nat.testBit_lor, Nat.testBit_land, Nat.testBit_xor, Nat.one_shiftLeft,
    Nat.testBit_two_pow, show (4294967295 : Nat) = 2 ^ 32 - 1 by norm_num,
    Nat.testBit_two_pow_sub_one]
  by_cases hj : b = j
  · subst hj
    simp [hset]
  · simp only [hj, decide_False, Bool.or_false, Bool.xor_false]
    by_cases hj32 : j < 32
    · simp [hj32]
    · have : w.testBit j = false := by
        apply Nat.testBit_lt_two_pow
        calc w < 4294967296 := hw
        _ = 2 ^ 32 := by norm_num
        _ ≤ 2 ^ j := Nat.pow_le_pow_right (by norm_num) (by omega)
      simp [hj32, this]

theorem clampAxis_fixed (bs pw q : ℚ) (h0 : 0 ≤ q) (hq : q ≤ pw) :
    clampAxis bs pw (q + 0) 0 = (q, 0) := by
  rw [add_zero]
  unfold clampAxis
  rw [if_neg (not_lt.mpr h0)]
  by_cases hb : pw ≤ q
  · rw [if_pos hb]
    rw [le_antisymm hq hb]
    simp [bounce]
  · rw [if_neg hb]

theorem get_pixel_ok (bm : List Nat) (x y : ℚ)
    (h0 : 0 ≤ pyInt y) (hlen : pyInt y < (bm.length : Int)) :
    get_pixel bm x y
      = Except.ok ((bm.getD (pyInt y).toNat 0) &&& (1 <<< ((pyInt x) % 32).toNat)) := by
  unfold get_pixel npIdx
  rw [if_pos ⟨h0, hlen⟩]

theorem set_pixel_ok (bm : List Nat) (x y : ℚ)
    (h0 : 0 ≤ pyInt y) (hlen : pyInt y < (bm.length : Int)) :
    set_pixel bm x y
      = Except.ok (bm.set (pyInt y).toNat
          ((bm.getD (pyInt y).toNat 0) ||| (1 <<< ((pyInt x) % 32).toNat))) := by
  unfold set_pixel npIdx
  rw [if_pos ⟨h0, hlen⟩]

theorem clear_pixel_ok (bm : List Nat) (x y : ℚ)
    (h0 : 0 ≤ pyInt y) (hlen : pyInt y < (bm.length : Int)) :
    clear_pixel bm x y
      = Except.ok (bm.set (pyInt y).toNat
          ((bm.getD (pyInt y).toNat 0) &&& (4294967295 ^^^ (1 <<< ((pyInt x) % 32).toNat)))) := by
  unfold clear_pixel npIdx
  rw [if_pos ⟨h0, hlen⟩]

theorem posStep_settled (wdt : Int) (pw ph bs : ℚ) (bm : List Nat) (p : Particle)
    (hvx : p.vx = 0) (hvy : p.vy = 0)
    (hx0 : 0 ≤ p.x) (hxw : p.x ≤ pw) (hy0 : 0 ≤ p.y) (hyh : p.y ≤ ph)
    (hrow0 : 0 ≤ pyInt (p.y / GRID_MULTIPLIER))
    (hrowlen : pyInt (p.y / GRID_MULTIPLIER) < (bm.length : Int))
    (hbit : (bm.getD (pyInt (p.y / GRID_MULTIPLIER)).toNat 0).testBit
      ((pyInt (p.x / GRID_MULTIPLIER)) % 32).toNat = true)
    (hwords : ∀ w ∈ bm, w < 4294967296) :
    posStep wdt pw ph bs bm p = Except.ok (p, bm) := by
  obtain ⟨px, py, pvx, pvy, pc⟩ := p
  simp only at hvx hvy hx0 hxw hy0 hyh hrow0 hrowlen hbit
  subst hvx
  subst hvy
  have hrowlt : (pyInt (py / GRID_MULTIPLIER)).toNat < bm.length := by omega
  have hword : bm.getD (pyInt (py / GRID_MULTIPLIER)).toNat 0 < 4294967296 := by
    refine hwords _ ?_
    rw [List.getD_eq_getElem bm 0 hrowlt]
    exact List.getElem_mem hrowlt
  have hres : resolveCollision wdt bs bm px py px py 0 0
      (pyInt (py / GRID_MULTIPLIER) * wdt + pyInt (px / GRID_MULTIPLIER))
      (pyInt (py / GRID_MULTIPLIER) * wdt + pyInt (px / GRID_MULTIPLIER))
      = Except.ok (px, py, 0, 0) := by
    unfold resolveCollision
    rw [if_neg (by simp)]
  have hclear : clear_pixel bm (px / GRID_MULTIPLIER) (py / GRID_MULTIPLIER)
      = Except.ok (bm.set (pyInt (py / GRID_MULTIPLIER)).toNat
          ((bm.getD (pyInt (py / GRID_MULTIPLIER)).toNat 0)
            &&& (4294967295 ^^^ (1 <<< ((pyInt (px / GRID_MULTIPLIER)) % 32).toNat)))) :=
    clear_pixel_ok bm _ _ hrow0 hrowlen
  have hset2 : set_pixel (bm.set (pyInt (py / GRID_MULTIPLIER)).toNat
          ((bm.getD (pyInt (py / GRID_MULTIPLIER)).toNat 0)
            &&& (4294967295 ^^^ (1 <<< ((pyInt (px / GRID_MULTIPLIER)) % 32).toNat))))
        (px / GRID_MULTIPLIER) (py / GRID_MULTIPLIER)
      = Except.ok bm := by
    rw [set_pixel_ok _ _ _ hrow0 (by rw [List.length_set]; exact hrowlen)]
    congr 1
    have hgd : ∀ A : Nat, (bm.set (pyInt (py / GRID_MULTIPLIER)).toNat A).getD
        (pyInt (py / GRID_MULTIPLIER)).toNat 0 = A := by
      intro A
      rw [List.getD_eq_getElem?_getD, List.getElem?_set_self hrowlt, Option.getD_some]
    rw [hgd, List.set_set, clear_then_set_self hword hbit, list_set_getD_self bm _ hrowlt]
  unfold posStep
  simp only
  rw [clampAxis_fixed bs pw px hx0 hxw, clampAxis_fixed bs ph py hy0 hyh]
  simp only [hres, hclear, hset2]

theorem posList_settled (wdt : Int) (pw ph bs : ℚ) (bm : List Nat) (ps : List Particle)
    (hwords : ∀ w ∈ bm, w < 4294967296)
    (H : ∀ p ∈ ps, p.vx = 0 ∧ p.vy = 0 ∧ (0 ≤ p.x ∧ p.x ≤ pw ∧ 0 ≤ p.y ∧ p.y ≤ ph) ∧
      0 ≤ pyInt (p.y / GRID_MULTIPLIER) ∧
      pyInt (p.y / GRID_MULTIPLIER) < (bm.length : Int) ∧
      (bm.getD (pyInt (p.y / GRID_MULTIPLIER)).toNat 0).testBit
        ((pyInt (p.x / GRID_MULTIPLIER)) % 32).toNat = true) :
    posList wdt pw ph bs bm ps = Except.ok (ps, bm) := by
  induction ps with
  | nil => rfl
  | cons p rest ih =>
    obtain ⟨h1, h2, ⟨h3, h4, h5, h6⟩, h7, h8, h9⟩ := H p (List.mem_cons_self p rest)
    unfold posList
    simp only [posStep_settled wdt pw ph bs bm p h1 h2 h3 h4 h5 h6 h7 h8 h9 hwords,
      ih (fun q hq => H q (List.mem_cons_of_mem p hq))]

theorem velUpdate_zero (jx jy : Int) (hjx : jx = 0) (hjy : jy = 0) (p : Particle)
    (hvx : p.vx = 0) (hvy : p.vy = 0) :
    velUpdate 0 0 jx jy p = p := by
  obtain ⟨px, py, pvx, pvy, pc⟩ := p
  simp only at hvx hvy
  subst hvx
  subst hvy
  subst hjx
  subst hjy
  unfold velUpdate pyMax pyMin
  norm_num [GRID_MULTIPLIER]

theorem velList_zero (jx jy : Nat → Int) (hjx : ∀ i, jx i = 0) (hjy : ∀ i, jy i = 0)
    (ps : List Particle) (H : ∀ p ∈ ps, p.vx = 0 ∧ p.vy = 0) :
    ∀ i, velList 0 0 jx jy i ps = ps := by
  induction ps with
  | nil => intro i; rfl
  | cons p rest ih =>
    intro i
    obtain ⟨h1, h2⟩ := H p (List.mem_cons_self p rest)
    unfold velList
    rw [velUpdate_zero (jx i) (jy i) (hjx i) (hjy i) p h1 h2,
      ih (fun q hq => H q (List.mem_cons_of_mem p hq)) (i + 1)]

theorem tick_settled (s : Simulation) (jx jy : Nat → Int)
    (hjx : ∀ i, jx i = 0) (hjy : ∀ i, jy i = 0) (hs : Settled s) :
    tick s jx jy = Except.ok ({ s with simtime := s.simtime + 1 }) := by
  obtain ⟨hg, hwords, hp⟩ := hs
  obtain ⟨sg, sw, sh, spw, sph, sgs, sbs, sst, sbm, sps⟩ := s
  simp only at hg hwords hp ⊢
  subst hg
  unfold tick
  simp only
  have hax : (0 : ℚ) * sgs - pyAbs ((0 : ℚ) * sgs) / 8 = 0 := by
    norm_num [pyAbs]
  rw [hax]
  rw [velList_zero jx jy hjx hjy sps (fun p hp2 => ⟨(hp p hp2).1, (hp p hp2).2.1⟩) 0]
  rw [posList_settled sw spw sph sbs sbm sps hwords (fun p hp2 => by
    obtain ⟨a1, a2, a3, a4, a5, a6⟩ := hp p hp2
    exact ⟨a1, a2, a3, a4, a5, a6⟩)]

theorem Settled_seed : Settled (okOr (create 32 32) dfltSim) :=
  of_decide_eq_true (by with_unfolding_all rfl)

theorem seed_simtime : (okOr (create 32 32) dfltSim).simtime = 0 := by
  with_unfolding_all rfl

theorem simtime_update_eq (s : Simulation) (t : Nat) (h : s.simtime = t) :
    ({ s with simtime := t } : Simulation) = s := by
  obtain ⟨f1, f2, f3, f4, f5, f6, f7, st, f9, f10⟩ := s
  simp only at h
  subst h
  rfl

theorem gravity_update_eq (s : Simulation) (h : s.gravity = (0, 0, 0)) :
    ({ s with gravity := (0, 0, 0) } : Simulation) = s := by
  obtain ⟨f1, f2, f3, f4, f5, f6, f7, f8, f9, f10⟩ := s
  simp only at h
  subst h
  rfl

theorem Settled_simtime (s : Simulation) (t : Nat) (h : Settled s) :
    Settled ({ s with simtime := t }) := h

/-- C9: with the default gravity `(0,0,0)` the jitter ceiling `raz` is 0,
so every `randint(0, raz)` draw is 0 and each tick is deterministic; the
seeded `create 32 32` configuration is a fixed point of `tick` up to the
`simtime` counter (first conjunct), and ten successive ticks leave the
whole engine — in particular every seeded particle's position
`(cellX*256, cellY*256)` — unchanged (second conjunct).  The jitter
oracles are only assumed to lie in the degenerate range `[0, 0]`. -/
theorem C9_zero_gravity_ten_ticks (JX JY : Nat → Nat → Int)
    (hJX : ∀ n i, 0 ≤ JX n i ∧ JX n i ≤ 0) (hJY : ∀ n i, 0 ≤ JY n i ∧ JY n i ≤ 0) :
    ∀ s0 : Simulation, create 32 32 = Except.ok s0 →
      tick s0 (JX 0) (JY 0) = Except.ok ({ s0 with simtime := 1 }) ∧
      iterSim 32 32 zeroG JX JY 10 = Except.ok ({ s0 with simtime := 10 }) := by
  intro s0 hc
  have hok : okOr (create 32 32) dfltSim = s0 := by rw [hc]; rfl
  have hsettled : Settled s0 := hok ▸ Settled_seed
  have hst0 : s0.simtime = 0 := hok ▸ seed_simtime
  have hjx : ∀ n i, JX n i = 0 := fun n i => le_antisymm (hJX n i).2 (hJX n i).1
  have hjy : ∀ n i, JY n i = 0 := fun n i => le_antisymm (hJY n i).2 (hJY n i).1
  have main : ∀ n : Nat, iterSim 32 32 zeroG JX JY n = Except.ok ({ s0 with simtime := n }) := by
    intro n
    induction n with
    | zero =>
      show create 32 32 = _
      rw [hc, simtime_update_eq s0 0 hst0]
    | succ n ih =>
      simp only [iterSim, ih, zeroG]
      rw [gravity_update_eq ({ s0 with simtime := n }) hsettled.1]
      exact tick_settled _ (JX n) (JY n) (hjx n) (hjy n) (Settled_simtime s0 n hsettled)
  refine ⟨?_, main 10⟩
  have h1 := tick_settled s0 (JX 0) (JY 0) (hjx 0) (hjy 0) hsettled
  rw [hst0] at h1
  exact h1

/-- C9 witness: the all-zeros draw oracle on the seeded engine. -/
theorem C9_zero_gravity_ten_ticks_witness :
    iterSim 32 32 zeroG (fun _ => zeroJ) (fun _ => zeroJ) 10
      = Except.ok ({ (okOr (create 32 32) dfltSim) with simtime := 10 }) :=
  (C9_zero_gravity_ten_ticks (fun _ => zeroJ) (fun _ => zeroJ)
    (fun _ _ => ⟨le_refl 0, le_refl 0⟩) (fun _ _ => ⟨le_refl 0, le_refl 0⟩)
    (okOr (create 32 32) dfltSim)
    (okOr_eq_ok _ dfltSim (by with_unfolding_all rfl))).2

/-! ## Claim C4 -/

theorem pyInt_div_bounds {q : ℚ} {m : Int} (h0 : 0 ≤ q)
    (hub : q ≤ (m : ℚ) * GRID_MULTIPLIER - GRID_MULTIPLIER) :
    0 ≤ pyInt (q / GRID_MULTIPLIER) ∧ pyInt (q / GRID_MULTIPLIER) ≤ m - 1 := by
  have hG : (0 : ℚ) < GRID_MULTIPLIER := by norm_num [GRID_MULTIPLIER]
  rw [pyInt_eq_floor (by positivity)]
  constructor
  · exact Int.floor_nonneg.mpr (by positivity)
  · have hle : q / GRID_MULTIPLIER ≤ ((m - 1 : Int) : ℚ) := by
      rw [div_le_iff₀ hG]
      push_cast
      nlinarith [hub]
    calc ⌊q / GRID_MULTIPLIER⌋ ≤ ⌊((m - 1 : Int) : ℚ)⌋ := Int.floor_le_floor hle
      _ = m - 1 := Int.floor_intCast _

theorem abs_bounce_half (v : ℚ) : |bounce (1/2) v| ≤ |v| := by
  unfold bounce
  rw [abs_mul, abs_neg]
  have h2 : |(1/2 : ℚ)| = 1/2 := by norm_num
  rw [h2]
  nlinarith [abs_nonneg v]

theorem clampAxis_out (bs pw n v : ℚ) (hpw : 0 ≤ pw) :
    0 ≤ (clampAxis bs pw n v).1 ∧ (clampAxis bs pw n v).1 ≤ pw ∧
    ((clampAxis bs pw n v).2 = v ∨ (clampAxis bs pw n v).2 = bounce bs v) := by
  unfold clampAxis
  split_ifs with h1 h2
  · exact ⟨le_refl 0, hpw, Or.inr rfl⟩
  · exact ⟨hpw, le_refl pw, Or.inr rfl⟩
  · exact ⟨not_lt.mp h1, le_of_lt (not_le.mp h2), Or.inl rfl⟩

set_option maxHeartbeats 1000000 in
theorem resolveCollision_out (width : Int) (bs : ℚ) (bm : List Nat)
    (x y nx ny vx vy : ℚ) (oidx nidx : Int)
    (hny0 : 0 ≤ pyInt (ny / GRID_MULTIPLIER))
    (hnylen : pyInt (ny / GRID_MULTIPLIER) < (bm.length : Int))
    (hy0 : 0 ≤ pyInt (y / GRID_MULTIPLIER))
    (hylen : pyInt (y / GRID_MULTIPLIER) < (bm.length : Int)) :
    ∃ x2 y2 vx2 vy2,
      resolveCollision width bs bm x y nx ny vx vy oidx nidx = Except.ok (x2, y2, vx2, vy2) ∧
      (x2 = x ∨ x2 = nx) ∧ (y2 = y ∨ y2 = ny) ∧
      (vx2 = vx ∨ vx2 = bounce bs vx) ∧ (vy2 = vy ∨ vy2 = bounce bs vy) := by
  unfold resolveCollision
  simp only [get_pixel_ok bm (nx / GRID_MULTIPLIER) (ny / GRID_MULTIPLIER) hny0 hnylen,
    get_pixel_ok bm (nx / GRID_MULTIPLIER) (y / GRID_MULTIPLIER) hy0 hylen,
    get_pixel_ok bm (x / GRID_MULTIPLIER) (ny / GRID_MULTIPLIER) hny0 hnylen]
  split_ifs <;>
    exact ⟨_, _, _, _, rfl, by tauto, by tauto, by tauto, by tauto⟩

set_option maxHeartbeats 1000000 in
theorem posStep_bounds (wdt h : Int) (pw ph : ℚ) (bm : List Nat) (p : Particle)
    (hpw : 0 ≤ pw) (hph : ph = (h : ℚ) * GRID_MULTIPLIER - GRID_MULTIPLIER)
    (hh1 : 1 ≤ h) (hhlen : h ≤ (bm.length : Int))
    (hp : inBounds pw ph p) :
    ∃ p2 bm2, posStep wdt pw ph (1/2) bm p = Except.ok (p2, bm2) ∧
      bm2.length = bm.length ∧ inBounds pw ph p2 ∧
      |p2.vx| ≤ |p.vx| ∧ |p2.vy| ≤ |p.vy| := by
  obtain ⟨hx0, hxw, hy0, hyh⟩ := hp
  have hG : (0 : ℚ) < GRID_MULTIPLIER := by norm_num [GRID_MULTIPLIER]
  have hph0 : 0 ≤ ph := by
    rw [hph]
    have : (1 : ℚ) ≤ (h : ℚ) := by exact_mod_cast hh1
    nlinarith
  obtain ⟨ha0, haw, hav⟩ := clampAxis_out (1/2) pw (p.x + p.vx) p.vx hpw
  obtain ⟨hb0, hbh, hbv⟩ := clampAxis_out (1/2) ph (p.y + p.vy) p.vy hph0
  have hyc := pyInt_div_bounds hy0 (le_of_le_of_eq hyh hph)
  have hbc := pyInt_div_bounds hb0 (le_of_le_of_eq hbh hph)
  have hylen : pyInt (p.y / GRID_MULTIPLIER) < (bm.length : Int) := by omega
  have hblen : pyInt ((clampAxis (1/2) ph (p.y + p.vy) p.vy).1 / GRID_MULTIPLIER)
      < (bm.length : Int) := by omega
  obtain ⟨x2, y2, vx2, vy2, hres, hx2, hy2, hvx2, hvy2⟩ :=
    resolveCollision_out wdt (1/2) bm p.x p.y
      (clampAxis (1/2) pw (p.x + p.vx) p.vx).1
      (clampAxis (1/2) ph (p.y + p.vy) p.vy).1
      (clampAxis (1/2) pw (p.x + p.vx) p.vx).2
      (clampAxis (1/2) ph (p.y + p.vy) p.vy).2
      (pyInt (p.y / GRID_MULTIPLIER) * wdt + pyInt (p.x / GRID_MULTIPLIER))
      (pyInt ((clampAxis (1/2) ph (p.y + p.vy) p.vy).1 / GRID_MULTIPLIER) * wdt
        + pyInt ((clampAxis (1/2) pw (p.x + p.vx) p.vx).1 / GRID_MULTIPLIER))
      hbc.1 hblen hyc.1 hylen
  have hy2c : 0 ≤ pyInt (y2 / GRID_MULTIPLIER) ∧ pyInt (y2 / GRID_MULTIPLIER) < (bm.length : Int) := by
    rcases hy2 with h2 | h2 <;> subst h2
    · exact ⟨hyc.1, hylen⟩
    · exact ⟨hbc.1, hblen⟩
  have hsetok := set_pixel_ok
    (bm.set (pyInt (p.y / GRID_MULTIPLIER)).toNat
      ((bm.getD (pyInt (p.y / GRID_MULTIPLIER)).toNat 0) &&&
        (4294967295 ^^^ (1 <<< ((pyInt (p.x / GRID_MULTIPLIER)) % 32).toNat))))
    (x2 / GRID_MULTIPLIER) (y2 / GRID_MULTIPLIER) hy2c.1
    (by rw [List.length_set]; exact hy2c.2)
  unfold posStep
  simp only [hres, clear_pixel_ok bm (p.x / GRID_MULTIPLIER) (p.y / GRID_MULTIPLIER) hyc.1 hylen,
    hsetok]
  refine ⟨_, _, rfl, by rw [List.length_set, List.length_set], ?_, ?_, ?_⟩
  · show inBounds pw ph (Particle.mk x2 y2 vx2 vy2 p.c)
    refine ⟨?_, ?_, ?_, ?_⟩
    · rcases hx2 with h2 | h2 <;> subst h2
      · exact hx0
      · exact ha0
    · rcases hx2 with h2 | h2 <;> subst h2
      · exact hxw
      · exact haw
    · rcases hy2 with h2 | h2 <;> subst h2
      · exact hy0
      · exact hb0
    · rcases hy2 with h2 | h2 <;> subst h2
      · exact hyh
      · exact hbh
  · show |vx2| ≤ |p.vx|
    rcases hvx2 with h2 | h2 <;> subst h2 <;> rcases hav with h3 | h3 <;> rw [h3] <;>
      first
        | exact le_refl _
        | exact abs_bounce_half _
        | exact le_trans (abs_bounce_half _) (abs_bounce_half _)
  · show |vy2| ≤ |p.vy|
    rcases hvy2 with h2 | h2 <;> subst h2 <;> rcases hbv with h3 | h3 <;> rw [h3] <;>
      first
        | exact le_refl _
        | exact abs_bounce_half _
        | exact le_trans (abs_bounce_half _) (abs_bounce_half _)

theorem velUpdate_bounds (ax ay : ℚ) (jx jy : Int) (p : Particle) :
    (velUpdate ax ay jx jy p).x = p.x ∧ (velUpdate ax ay jx jy p).y = p.y ∧
    |(velUpdate ax ay jx jy p).vx| ≤ GRID_MULTIPLIER ∧
    |(velUpdate ax ay jx jy p).vy| ≤ GRID_MULTIPLIER := by
  unfold velUpdate pyMax pyMin
  refine ⟨rfl, rfl, ?_, ?_⟩ <;>
    simp only <;> split_ifs <;> rw [abs_le] <;> constructor <;>
    simp only [GRID_MULTIPLIER] at * <;> linarith

theorem velList_bounds (ax ay : ℚ) (jx jy : Nat → Int) (pw ph : ℚ) :
    ∀ (i : Nat) (ps : List Particle), (∀ p ∈ ps, inBounds pw ph p) →
      ∀ q ∈ velList ax ay jx jy i ps,
        inBounds pw ph q ∧ |q.vx| ≤ GRID_MULTIPLIER ∧ |q.vy| ≤ GRID_MULTIPLIER := by
  intro i ps
  induction ps generalizing i with
  | nil =>
    intro _ q hq
    simp [velList] at hq
  | cons p rest ih =>
    intro H q hq
    unfold velList at hq
    rcases List.mem_cons.mp hq with h1 | h2
    · subst h1
      obtain ⟨e1, e2, e3, e4⟩ := velUpdate_bounds ax ay (jx i) (jy i) p
      obtain ⟨b1, b2, b3, b4⟩ := H p (List.mem_cons_self p rest)
      exact ⟨⟨e1 ▸ b1, e1 ▸ b2, e2 ▸ b3, e2 ▸ b4⟩, e3, e4⟩
    · exact ih (i + 1) (fun r hr => H r (List.mem_cons_of_mem p hr)) q h2

theorem posList_bounds (wdt h : Int) (pw ph : ℚ)
    (hpw : 0 ≤ pw) (hph : ph = (h : ℚ) * GRID_MULTIPLIER - GRID_MULTIPLIER) (hh1 : 1 ≤ h) :
    ∀ (ps : List Particle) (bm : List Nat), h ≤ (bm.length : Int) →
      (∀ p ∈ ps, inBounds pw ph p ∧ |p.vx| ≤ GRID_MULTIPLIER ∧ |p.vy| ≤ GRID_MULTIPLIER) →
      ∃ ps2 bm2, posList wdt pw ph (1/2) bm ps = Except.ok (ps2, bm2) ∧
        bm2.length = bm.length ∧
        ∀ q ∈ ps2, inBounds pw ph q ∧ |q.vx| ≤ GRID_MULTIPLIER ∧ |q.vy| ≤ GRID_MULTIPLIER := by
  intro ps
  induction ps with
  | nil =>
    intro bm _ _
    exact ⟨[], bm, rfl, rfl, by intro q hq; simp at hq⟩
  | cons p rest ih =>
    intro bm hlen H
    obtain ⟨hb, hvx, hvy⟩ := H p (List.mem_cons_self p rest)
    obtain ⟨p2, bmA, hstep, hlenA, hbnd2, hvx2, hvy2⟩ :=
      posStep_bounds wdt h pw ph bm p hpw hph hh1 hlen hb
    obtain ⟨ps2, bm2, hrest, hlen2, H2⟩ := ih bmA (by rw [hlenA]; exact hlen)
      (fun r hr => H r (List.mem_cons_of_mem p hr))
    refine ⟨p2 :: ps2, bm2, ?_, by rw [hlen2, hlenA], ?_⟩
    · unfold posList
      simp only [hstep, hrest]
    · intro q hq
      rcases List.mem_cons.mp hq with h1 | h2
      · subst h1
        exact ⟨hbnd2, le_trans hvx2 hvx, le_trans hvy2 hvy⟩
      · exact H2 q h2

theorem tick_BInv (w h : Int) (s : Simulation) (jx jy : Nat → Int)
    (hw : 32 ≤ w) (hh : 32 ≤ h) (hs : BInv w h s) :
    ∃ s2, tick s jx jy = Except.ok s2 ∧ BInv w h s2 := by
  obtain ⟨sg, sw, sh, spw, sph, sgs, sbs, sst, sbm, sps⟩ := s
  obtain ⟨hsw, hsh, hspw, hsph, hsbs, hslen, hps⟩ := hs
  simp only at hsw hsh hspw hsph hsbs hslen hps
  subst hsw
  subst hsh
  subst hspw
  subst hsph
  subst hsbs
  have hpw0 : (0 : ℚ) ≤ (sw : ℚ) * GRID_MULTIPLIER - GRID_MULTIPLIER := by
    have h1 : (1 : ℚ) ≤ (sw : ℚ) := by exact_mod_cast (by omega : (1 : Int) ≤ sw)
    have hG : GRID_MULTIPLIER = (256 : ℚ) := rfl
    nlinarith [h1]
  obtain ⟨ps2, bm2, hrun, hlen2, H2⟩ := posList_bounds sw sh
    ((sw : ℚ) * GRID_MULTIPLIER - GRID_MULTIPLIER) ((sh : ℚ) * GRID_MULTIPLIER - GRID_MULTIPLIER)
    hpw0 rfl (by omega)
    (velList (sg.1 * sgs - pyAbs (sg.2.2 * sgs) / 8) (sg.2.1 * sgs - pyAbs (sg.2.2 * sgs) / 8)
      jx jy 0 sps)
    sbm hslen
    (fun q hq => velList_bounds _ _ jx jy _ _ 0 sps (fun r hr => (hps r hr).1) q hq)
  refine ⟨⟨sg, sw, sh, (sw : ℚ) * GRID_MULTIPLIER - GRID_MULTIPLIER,
    (sh : ℚ) * GRID_MULTIPLIER - GRID_MULTIPLIER, sgs, 1/2, sst + 1, bm2, ps2⟩, ?_, ?_⟩
  · unfold tick
    simp only [hrun]
  · exact ⟨rfl, rfl, rfl, rfl, rfl, by rw [hlen2]; exact hslen,
      fun p hp => ⟨(H2 p hp).1, (H2 p hp).2.1, (H2 p hp).2.2⟩⟩

theorem set_pixel_length {bm bm2 : List Nat} {x y : ℚ}
    (h : set_pixel bm x y = Except.ok bm2) : bm2.length = bm.length := by
  unfold set_pixel at h
  split at h
  · simp at h
  · obtain rfl := Except.ok.inj h
    exact List.length_set bm _ _

theorem add_particle_ok {s : Simulation} {p : Particle} {s1 : Simulation}
    (h : add_particle s p = Except.ok s1) :
    s1.gravity = s.gravity ∧ s1.width = s.width ∧ s1.height = s.height ∧
    s1.pwidth = s.pwidth ∧ s1.pheight = s.pheight ∧ s1.grav_scale = s.grav_scale ∧
    s1.bounce_scale = s.bounce_scale ∧ s1.simtime = s.simtime ∧
    s1.bitmap.length = s.bitmap.length ∧ s1.particles = s.particles ++ [p] := by
  simp only [add_particle] at h
  split at h
  · simp at h
  · rename_i bm heq
    obtain rfl := Except.ok.inj h
    exact ⟨rfl, rfl, rfl, rfl, rfl, rfl, rfl, rfl, set_pixel_length heq, rfl⟩

theorem addSeeds_ok {L : List (Int × Int)} {s s2 : Simulation}
    (h : addSeeds s L = Except.ok s2) :
    s2.gravity = s.gravity ∧ s2.width = s.width ∧ s2.height = s.height ∧
    s2.pwidth = s.pwidth ∧ s2.pheight = s.pheight ∧ s2.grav_scale = s.grav_scale ∧
    s2.bounce_scale = s.bounce_scale ∧ s2.simtime = s.simtime ∧
    s2.bitmap.length = s.bitmap.length ∧
    s2.particles = s.particles ++ L.map seedParticle := by
  induction L generalizing s with
  | nil =>
    unfold addSeeds at h
    obtain rfl := Except.ok.inj h
    simp
  | cons c rest ih =>
    unfold addSeeds at h
    split at h
    · simp at h
    · rename_i s1 heq
      obtain ⟨g1, w1, h1, pw1, ph1, gs1, bs1, st1, len1, ps1⟩ := add_particle_ok heq
      obtain ⟨g2, w2, h2, pw2, ph2, gs2, bs2, st2, len2, ps2⟩ := ih h
      refine ⟨g2.trans g1, w2.trans w1, h2.trans h1, pw2.trans pw1, ph2.trans ph1,
        gs2.trans gs1, bs2.trans bs1, st2.trans st1, len2.trans len1, ?_⟩
      rw [ps2, ps1, List.map_cons, List.append_assoc]
      rfl

theorem seedCells_range : ∀ c ∈ seedCells, 0 ≤ c.1 ∧ c.1 ≤ 31 ∧ 0 ≤ c.2 ∧ c.2 ≤ 1 := by
  intro c hc
  unfold seedCells at hc
  obtain ⟨x, hx, hcm⟩ := List.mem_flatMap.mp hc
  have hx32 : x < 32 := List.mem_range.mp hx
  rcases List.mem_cons.mp hcm with rfl | hcm2
  · refine ⟨?_, ?_, ?_, ?_⟩ <;> simp <;> omega
  · rcases List.mem_cons.mp hcm2 with rfl | h3
    · refine ⟨?_, ?_, ?_, ?_⟩ <;> simp <;> omega
    · simp at h3

theorem create_ok {w h : Int} {s0 : Simulation} (hw : 0 < w) (hh : 0 < h)
    (hc : create w h = Except.ok s0) :
    32 ≤ w ∧ 32 ≤ h ∧ BInv w h s0 := by
  unfold create at hc
  by_cases hv : w % 32 ≠ 0 ∨ h % 32 ≠ 0
  · rw [if_pos hv] at hc
    simp at hc
  · rw [if_neg hv] at hc
    push_neg at hv
    obtain ⟨hw32m, hh32m⟩ := hv
    have hwge : 32 ≤ w := by omega
    have hhge : 32 ≤ h := by omega
    by_cases hsz : h * (w / 32) < 0
    · simp only [if_pos hsz] at hc
      simp at hc
    · simp only [if_neg hsz] at hc
      unfold init_particles at hc
      obtain ⟨g2, w2, h2, pw2, ph2, gs2, bs2, st2, len2, ps2⟩ := addSeeds_ok hc
      refine ⟨hwge, hhge, w2, h2, pw2, ph2, bs2, ?_, ?_⟩
      · rw [len2]
        have hk : 1 ≤ w / 32 := by omega
        have hmul : h * 1 ≤ h * (w / 32) := by
          exact mul_le_mul_of_nonneg_left hk (le_of_lt hh)
        simp only [List.length_replicate]
        omega
      · intro p hp
        rw [ps2] at hp
        simp only [List.nil_append] at hp
        obtain ⟨c, hcmem, rfl⟩ := List.mem_map.mp hp
        have hcr : 0 ≤ c.1 ∧ c.1 ≤ 31 ∧ 0 ≤ c.2 ∧ c.2 ≤ 1 := seedCells_range c hcmem
        obtain ⟨hc1, hc2, hc3, hc4⟩ := hcr
        have hGe : GRID_MULTIPLIER = (256 : ℚ) := rfl
        have hq1 : ((c.1 : ℚ)) ≤ ((31 : Int) : ℚ) := by exact_mod_cast hc2
        have hq2 : ((c.2 : ℚ)) ≤ ((1 : Int) : ℚ) := by exact_mod_cast hc4
        have hq3 : (0 : ℚ) ≤ (c.1 : ℚ) := by exact_mod_cast hc1
        have hq4 : (0 : ℚ) ≤ (c.2 : ℚ) := by exact_mod_cast hc3
        have hwq : ((32 : Int) : ℚ) ≤ (w : ℚ) := by exact_mod_cast hwge
        have hhq : ((32 : Int) : ℚ) ≤ (h : ℚ) := by exact_mod_cast hhge
        rw [pw2, ph2]
        refine ⟨⟨?_, ?_, ?_, ?_⟩, ?_, ?_⟩
        · show (0 : ℚ) ≤ (c.1 : ℚ) * GRID_MULTIPLIER
          nlinarith
        · show (c.1 : ℚ) * GRID_MULTIPLIER ≤ (w : ℚ) * GRID_MULTIPLIER - GRID_MULTIPLIER
          push_cast at hq1 hwq
          nlinarith
        · show (0 : ℚ) ≤ (c.2 : ℚ) * GRID_MULTIPLIER
          nlinarith
        · show (c.2 : ℚ) * GRID_MULTIPLIER ≤ (h : ℚ) * GRID_MULTIPLIER - GRID_MULTIPLIER
          push_cast at hq2 hhq
          nlinarith
        · show |(0 : ℚ)| ≤ GRID_MULTIPLIER
          norm_num [hGe]
        · show |(0 : ℚ)| ≤ GRID_MULTIPLIER
          norm_num [hGe]

theorem iterSim_BInv (w h : Int) (G : Nat → ℚ × ℚ × ℚ) (JX JY : Nat → Nat → Int)
    (hw : 0 < w) (hh : 0 < h) :
    ∀ (n : Nat) (s : Simulation), iterSim w h G JX JY n = Except.ok s →
      32 ≤ w ∧ 32 ≤ h ∧ BInv w h s := by
  intro n
  induction n with
  | zero =>
    intro s hc
    exact create_ok hw hh hc
  | succ n ih =>
    intro s hc
    unfold iterSim at hc
    cases hit : iterSim w h G JX JY n with
    | error e =>
      rw [hit] at hc
      simp at hc
    | ok s1 =>
      rw [hit] at hc
      simp only at hc
      obtain ⟨hw32, hh32, hB1⟩ := ih s1 hit
      obtain ⟨s2, htick, hB2⟩ := tick_BInv w h ({ s1 with gravity := G n }) (JX n) (JY n)
        hw32 hh32 hB1
      rw [htick] at hc
      obtain rfl := Except.ok.inj hc
      exact ⟨hw32, hh32, hB2⟩

/-- C4: for every engine created with positive (hence ≥ 32) multiple-of-32
dimensions and evolved by any number of ticks, under any per-tick gravity
vectors and any integer jitter draws, every particle satisfies
`0 ≤ x ≤ width*256 - 256`, `0 ≤ y ≤ height*256 - 256`, `|vx| ≤ 256` and
`|vy| ≤ 256` (`GRID_MULTIPLIER = 256`).  The dimension hypotheses are only
`0 < w` and `0 < h`; divisibility by 32 follows from `create` succeeding. -/
theorem C4_bounds_after_ticks (w h : Int) (G : Nat → ℚ × ℚ × ℚ) (JX JY : Nat → Nat → Int)
    (hw : 0 < w) (hh : 0 < h) (n : Nat) (s : Simulation)
    (hrun : iterSim w h G JX JY n = Except.ok s) :
    ∀ p ∈ s.particles,
      (0 ≤ p.x ∧ p.x ≤ (w : ℚ) * GRID_MULTIPLIER - GRID_MULTIPLIER ∧
       0 ≤ p.y ∧ p.y ≤ (h : ℚ) * GRID_MULTIPLIER - GRID_MULTIPLIER) ∧
      |p.vx| ≤ GRID_MULTIPLIER ∧ |p.vy| ≤ GRID_MULTIPLIER := by
  obtain ⟨_, _, _, _, hpw, hph, _, _, hps⟩ := iterSim_BInv w h G JX JY hw hh n s hrun
  intro p hp
  obtain ⟨hb, hv⟩ := hps p hp
  rw [hpw, hph] at hb
  exact ⟨hb, hv.1, hv.2⟩

/-- C4 witness: the bounds instantiated on the freshly created 32×32
engine (zero ticks) at the seeded particle of cell `(0, 0)`. -/
theorem C4_bounds_after_ticks_witness :
    ((0 : ℚ) ≤ (seedParticle (0, 0)).x ∧
     (seedParticle (0, 0)).x ≤ ((32 : Int) : ℚ) * GRID_MULTIPLIER - GRID_MULTIPLIER ∧
     (0 : ℚ) ≤ (seedParticle (0, 0)).y ∧
     (seedParticle (0, 0)).y ≤ ((32 : Int) : ℚ) * GRID_MULTIPLIER - GRID_MULTIPLIER) ∧
    |(seedParticle (0, 0)).vx| ≤ GRID_MULTIPLIER ∧ |(seedParticle (0, 0)).vy| ≤ GRID_MULTIPLIER :=
  C4_bounds_after_ticks 32 32 zeroG (fun _ => zeroJ) (fun _ => zeroJ)
    (by norm_num) (by norm_num) 0 (okOr (create 32 32) dfltSim)
    (okOr_eq_ok _ dfltSim (by with_unfolding_all rfl))
    (seedParticle (0, 0))
    (by with_unfolding_all decide)

theorem getD_set_eq (bm : List Nat) (i a : Nat) (h : i < bm.length) :
    (bm.set i a).getD i 0 = a := by
  rw [List.getD_eq_getElem?_getD, List.getElem?_set_self h, Option.getD_some]

theorem getD_set_ne (bm : List Nat) (i j a : Nat) (h : i ≠ j) :
    (bm.set i a).getD j 0 = bm.getD j 0 := by
  rw [List.getD_eq_getElem?_getD, List.getElem?_set_ne h, ← List.getD_eq_getElem?_getD]

theorem emod32_eq {a : Int} (h0 : 0 ≤ a) (h32 : a < 32) : a % 32 = a :=
  Int.emod_eq_of_lt h0 h32

theorem bit_and_ne_zero (w : Nat) {cx : Int} (h0 : 0 ≤ cx) (h32 : cx < 32) :
    (w &&& (1 <<< ((cx % 32).toNat)) ≠ 0) ↔ w.testBit cx.toNat = true := by
  rw [emod32_eq h0 h32, Nat.one_shiftLeft, Nat.and_two_pow]
  cases hb : w.testBit cx.toNat <;> simp [hb]

theorem cell_eq_decide (t c : Int × Int) (ht1 : 0 ≤ t.1) (hc1 : 0 ≤ c.1) (hw : c.2 = t.2) :
    decide (c = t) = decide (t.1.toNat = c.1.toNat) := by
  by_cases h : c = t
  · subst h
    simp
  · have h1 : c.1 ≠ t.1 := by
      intro hcon
      exact h (Prod.ext_iff.mpr ⟨hcon, hw⟩)
    have h2 : t.1.toNat ≠ c.1.toNat := by omega
    simp [h, h2]

theorem cell_ne_decide (t c : Int × Int) (hw : c.2 ≠ t.2) : decide (c = t) = false := by
  simp only [decide_eq_false_iff_not]
  intro hcon
  exact hw (by rw [hcon])

theorem cellSet_set_or (bm : List Nat) (t c : Int × Int)
    (ht1 : 0 ≤ t.1) (ht132 : t.1 < 32) (ht2 : 0 ≤ t.2) (htlen : t.2 < (bm.length : Int))
    (hc1 : 0 ≤ c.1) (hc2 : 0 ≤ c.2) :
    cellSet (bm.set t.2.toNat ((bm.getD t.2.toNat 0) ||| (1 <<< ((t.1 % 32).toNat)))) c
      = (cellSet bm c || decide (c = t)) := by
  rw [emod32_eq ht1 ht132]
  unfold cellSet
  by_cases hw : c.2 = t.2
  · have hwn : c.2.toNat = t.2.toNat := by omega
    have hlen : t.2.toNat < bm.length := by omega
    rw [hwn, getD_set_eq bm _ _ hlen, Nat.one_shiftLeft, Nat.testBit_lor, Nat.testBit_two_pow,
      cell_eq_decide t c ht1 hc1 hw]
  · have hwn : t.2.toNat ≠ c.2.toNat := by omega
    rw [getD_set_ne bm _ _ _ hwn, cell_ne_decide t c hw, Bool.or_false]

theorem cellSet_clear_andnot (bm : List Nat) (t c : Int × Int)
    (ht1 : 0 ≤ t.1) (ht132 : t.1 < 32) (ht2 : 0 ≤ t.2) (htlen : t.2 < (bm.length : Int))
    (hc1 : 0 ≤ c.1) (hc132 : c.1 < 32) (hc2 : 0 ≤ c.2) :
    cellSet (bm.set t.2.toNat ((bm.getD t.2.toNat 0) &&& (4294967295 ^^^ (1 <<< ((t.1 % 32).toNat))))) c
      = (cellSet bm c && !(decide (c = t))) := by
  rw [emod32_eq ht1 ht132]
  unfold cellSet
  by_cases hw : c.2 = t.2
  · have hwn : c.2.toNat = t.2.toNat := by omega
    have hlen : t.2.toNat < bm.length := by omega
    have h32b : decide (c.1.toNat < 32) = true := by
      simp only [decide_eq_true_eq]
      omega
    rw [hwn, getD_set_eq bm _ _ hlen, Nat.testBit_land, Nat.testBit_xor,
      show (4294967295 : Nat) = 2 ^ 32 - 1 by norm_num, Nat.testBit_two_pow_sub_one,
      Nat.one_shiftLeft, Nat.testBit_two_pow, h32b, Bool.true_xor,
      cell_eq_decide t c ht1 hc1 hw]
  · have hwn : t.2.toNat ≠ c.2.toNat := by omega
    rw [getD_set_ne bm _ _ _ hwn, cell_ne_decide t c hw, Bool.not_false, Bool.and_true]

theorem occCount_append (A B : List Particle) (c : Int × Int) :
    occCount (A ++ B) c = occCount A c + occCount B c :=
  List.countP_append _ _ _

theorem occCount_cons (p : Particle) (B : List Particle) (c : Int × Int) :
    occCount (p :: B) c = occCount B c + (if cellOf p = c then 1 else 0) := by
  unfold occCount
  rw [List.countP_cons]
  by_cases hp : cellOf p = c
  · simp [hp]
  · simp [hp]

theorem BitRel_move (h : Int) (bm bmC bm2 : List Nat) (A B : List Particle) (p p2 : Particle)
    (oc t : Int × Int)
    (hoc : cellOf p = oc) (ht : cellOf p2 = t)
    (hocg : inGrid h oc) (htg : inGrid h t)
    (hlen : h ≤ (bm.length : Int))
    (hrel : BitRel h bm (A ++ p :: B))
    (hfree : t = oc ∨ cellSet bm t = false)
    (hbmC : bmC = bm.set oc.2.toNat ((bm.getD oc.2.toNat 0) &&& (4294967295 ^^^ (1 <<< ((oc.1 % 32).toNat)))))
    (hbm2 : bm2 = bmC.set t.2.toNat ((bmC.getD t.2.toNat 0) ||| (1 <<< ((t.1 % 32).toNat)))) :
    BitRel h bm2 (A ++ p2 :: B) := by
  obtain ⟨hoc1, hoc2, hoc3, hoc4⟩ := hocg
  obtain ⟨htg1, htg2, htg3, htg4⟩ := htg
  have hcount : ∀ (q : Particle) (cc : Int × Int), occCount (A ++ q :: B) cc
      = occCount A cc + occCount B cc + (if cellOf q = cc then 1 else 0) := by
    intro q cc
    rw [occCount_append, occCount_cons]
    omega
  have hocrel := hrel oc ⟨hoc1, hoc2, hoc3, hoc4⟩
  rw [hcount p oc, hoc, if_pos rfl] at hocrel
  have hA0 : occCount A oc + occCount B oc = 0 := by
    have h2 := hocrel.2
    omega
  have hbit_oc : cellSet bm oc = true := by
    apply hocrel.1.mpr
    omega
  intro c hcg
  obtain ⟨hcg1, hcg2, hcg3, hcg4⟩ := hcg
  have e1 : cellSet bmC c = (cellSet bm c && !(decide (c = oc))) := by
    rw [hbmC]
    exact cellSet_clear_andnot bm oc c hoc1 hoc2 hoc3 (by omega) hcg1 hcg2 hcg3
  have e2 : cellSet bm2 c = (cellSet bmC c || decide (c = t)) := by
    rw [hbm2]
    refine cellSet_set_or bmC t c htg1 htg2 htg3 ?_ hcg1 hcg3
    rw [hbmC, List.length_set]
    omega
  have hold := hrel c ⟨hcg1, hcg2, hcg3, hcg4⟩
  rw [hcount p c, hoc] at hold
  rw [hcount p2 c, ht, e2, e1]
  by_cases hct : c = t
  · subst hct
    have hind : (if c = c then (1 : Nat) else 0) = 1 := if_pos rfl
    rw [hind]
    by_cases hcoc : c = oc
    · subst hcoc
      rw [hind] at hold
      simp only [decide_True, Bool.not_true, Bool.and_false, Bool.false_or]
      exact ⟨⟨fun _ => by omega, fun _ => by trivial⟩, by omega⟩
    · have hfree2 : cellSet bm c = false := by
        rcases hfree with h2 | h2
        · exact absurd h2 hcoc
        · exact h2
      have hindoc : (if oc = c then (1 : Nat) else 0) = 0 := by
        rw [if_neg]
        intro hcon
        exact hcoc hcon.symm
      rw [hindoc] at hold
      have hocc0 : occCount A c + occCount B c = 0 := by
        by_contra hne
        have h3 : occCount A c + occCount B c + 0 = 1 := by omega
        have hb := hold.1.mpr h3
        rw [hb] at hfree2
        exact absurd hfree2 (by simp)
      simp only [decide_True, Bool.or_true]
      exact ⟨⟨fun _ => by omega, fun _ => by trivial⟩, by omega⟩
  · have hdct : decide (c = t) = false := by simp [hct]
    have hindt : (if t = c then (1 : Nat) else 0) = 0 := by
      rw [if_neg]
      intro hcon
      exact hct hcon.symm
    rw [hindt]
    by_cases hcoc : c = oc
    · subst hcoc
      have hind : (if c = c then (1 : Nat) else 0) = 1 := if_pos rfl
      rw [hind] at hold
      simp only [hdct, decide_True, Bool.not_true, Bool.and_false, Bool.false_or, Bool.or_false]
      constructor
      · constructor
        · intro hfalse
          exact absurd hfalse (by simp)
        · intro hcon
          exfalso
          omega
      · omega
    · have hdcoc : decide (c = oc) = false := by simp [hcoc]
      have hindoc : (if oc = c then (1 : Nat) else 0) = 0 := by
        rw [if_neg]
        intro hcon
        exact hcoc hcon.symm
      rw [hindoc] at hold
      simp only [hdct, hdcoc, Bool.not_false, Bool.and_true, Bool.or_false]
      exact ⟨⟨fun hb => by have := hold.1.mp hb; omega, fun hc => hold.1.mpr (by omega)⟩, by omega⟩

theorem pyAbsI_cases (n : Int) : pyAbsI n = n ∨ pyAbsI n = -n := by
  unfold pyAbsI
  split_ifs
  · exact Or.inr rfl
  · exact Or.inl rfl

theorem pyInt_zero : pyInt 0 = 0 := by
  with_unfolding_all rfl

theorem cellSet_false_of_and_zero (bm : List Nat) (a b : Int) (ha0 : 0 ≤ a) (ha32 : a < 32)
    (hz : (bm.getD b.toNat 0) &&& (1 <<< ((a % 32).toNat)) = 0) :
    cellSet bm (a, b) = false := by
  show (bm.getD b.toNat 0).testBit a.toNat = false
  cases hb : (bm.getD b.toNat 0).testBit a.toNat with
  | false => rfl
  | true => exact absurd hz ((bit_and_ne_zero _ ha0 ha32).mpr hb)

theorem getD_mem_lt {bm : List Nat} (i : Nat) (hw : ∀ w ∈ bm, w < 4294967296) :
    bm.getD i 0 < 4294967296 := by
  by_cases hi : i < bm.length
  · exact hw _ (by rw [List.getD_eq_getElem bm 0 hi]; exact List.getElem_mem hi)
  · rw [List.getD_eq_default _ _ (by omega)]
    norm_num

theorem words_lt_clear {bm : List Nat} (i m : Nat) (hw : ∀ w ∈ bm, w < 4294967296) :
    ∀ w ∈ bm.set i ((bm.getD i 0) &&& m), w < 4294967296 := by
  intro w hwmem
  rcases List.mem_or_eq_of_mem_set hwmem with hmem | heq
  · exact hw w hmem
  · subst heq
    have h1 : (bm.getD i 0) &&& m ≤ bm.getD i 0 := Nat.and_le_left
    have h2 := getD_mem_lt i hw
    omega

theorem words_lt_setbit {bm : List Nat} (i k : Nat) (hk : k < 32) (hw : ∀ w ∈ bm, w < 4294967296) :
    ∀ w ∈ bm.set i ((bm.getD i 0) ||| (1 <<< k)), w < 4294967296 := by
  intro w hwmem
  rcases List.mem_or_eq_of_mem_set hwmem with hmem | heq
  · exact hw w hmem
  · subst heq
    have h4 : (2 : Nat) ^ 32 = 4294967296 := by norm_num
    have h1 : bm.getD i 0 < 2 ^ 32 := by
      have := getD_mem_lt i hw
      omega
    have h2 : (1 <<< k) < 2 ^ 32 := by
      rw [Nat.one_shiftLeft]
      exact Nat.pow_lt_pow_right (by norm_num) hk
    have h3 := Nat.or_lt_two_pow h1 h2
    omega

theorem clampAxis_cell_diff (bs pw : ℚ) (m : Int) (hm : 1 ≤ m)
    (hpw : pw = (m : ℚ) * GRID_MULTIPLIER - GRID_MULTIPLIER)
    (x v : ℚ) (hx0 : 0 ≤ x) (hxw : x ≤ pw) (hv : |v| ≤ GRID_MULTIPLIER) :
    pyInt (x / GRID_MULTIPLIER) - 1 ≤ pyInt ((clampAxis bs pw (x + v) v).1 / GRID_MULTIPLIER) ∧
    pyInt ((clampAxis bs pw (x + v) v).1 / GRID_MULTIPLIER) ≤ pyInt (x / GRID_MULTIPLIER) + 1 := by
  have hG : GRID_MULTIPLIER = (256 : ℚ) := rfl
  have hGpos : (0 : ℚ) < GRID_MULTIPLIER := by rw [hG]; norm_num
  have hvb : -(256 : ℚ) ≤ v ∧ v ≤ 256 := abs_le.mp (by rw [hG] at hv; exact hv)
  obtain ⟨hcx0, hcxm⟩ := pyInt_div_bounds hx0 (le_of_le_of_eq hxw hpw)
  unfold clampAxis
  split_ifs with h1 h2
  · have hx256 : x < 256 := by linarith [hvb.1]
    have hcx_le : pyInt (x / GRID_MULTIPLIER) ≤ 0 := by
      rw [pyInt_eq_floor (by positivity)]
      have hlt : x / GRID_MULTIPLIER < ((1 : Int) : ℚ) := by
        rw [hG]
        push_cast
        rw [div_lt_one (by norm_num)]
        linarith
      have := Int.floor_lt.mpr hlt
      omega
    have hz : pyInt ((0 : ℚ) / GRID_MULTIPLIER) = 0 := by
      rw [zero_div]
      exact pyInt_zero
    constructor
    · show pyInt (x / GRID_MULTIPLIER) - 1 ≤ pyInt ((0 : ℚ) / GRID_MULTIPLIER)
      rw [hz]
      omega
    · show pyInt ((0 : ℚ) / GRID_MULTIPLIER) ≤ pyInt (x / GRID_MULTIPLIER) + 1
      rw [hz]
      omega
  · have hpwd : pw / GRID_MULTIPLIER = ((m - 1 : Int) : ℚ) := by
      rw [hpw, hG]
      push_cast
      field_simp
      ring
    have hnpw : pyInt (pw / GRID_MULTIPLIER) = m - 1 := by
      rw [hpwd, pyInt_intCast]
    have hxge : ((m : ℚ) - 2) * 256 ≤ x := by
      rw [hpw, hG] at h2
      nlinarith [hvb.2]
    have hcx_ge : m - 2 ≤ pyInt (x / GRID_MULTIPLIER) := by
      rw [pyInt_eq_floor (by positivity)]
      refine Int.le_floor.mpr ?_
      rw [hG, le_div_iff₀ (by norm_num : (0:ℚ) < 256)]
      push_cast
      linarith
    constructor
    · show pyInt (x / GRID_MULTIPLIER) - 1 ≤ pyInt (pw / GRID_MULTIPLIER)
      rw [hnpw]
      omega
    · show pyInt (pw / GRID_MULTIPLIER) ≤ pyInt (x / GRID_MULTIPLIER) + 1
      rw [hnpw]
      omega
  · have hn0 : (0 : ℚ) ≤ x + v := not_lt.mp h1
    have hfl : pyInt ((x + v) / GRID_MULTIPLIER) = Int.floor ((x + v) / GRID_MULTIPLIER) :=
      pyInt_eq_floor (by positivity)
    have hflx : pyInt (x / GRID_MULTIPLIER) = Int.floor (x / GRID_MULTIPLIER) :=
      pyInt_eq_floor (by positivity)
    have hd1 : (x + v) / GRID_MULTIPLIER ≤ x / GRID_MULTIPLIER + 1 := by
      rw [hG]
      calc (x + v) / (256 : ℚ) ≤ (x + 256) / 256 := by
            gcongr
            linarith [hvb.2]
        _ = x / 256 + 1 := by ring
    have hd2 : x / GRID_MULTIPLIER ≤ (x + v) / GRID_MULTIPLIER + 1 := by
      rw [hG]
      calc x / (256 : ℚ) = ((x + v) + (-v)) / 256 := by ring
        _ ≤ ((x + v) + 256) / 256 := by
            gcongr
            linarith [hvb.1]
        _ = (x + v) / 256 + 1 := by ring
    constructor
    · show pyInt (x / GRID_MULTIPLIER) - 1 ≤ pyInt ((x + v) / GRID_MULTIPLIER)
      rw [hfl, hflx]
      have h3 := Int.floor_le_floor hd2
      rw [Int.floor_add_one] at h3
      omega
    · show pyInt ((x + v) / GRID_MULTIPLIER) ≤ pyInt (x / GRID_MULTIPLIER) + 1
      rw [hfl, hflx]
      have h3 := Int.floor_le_floor hd1
      rw [Int.floor_add_one] at h3
      omega

set_option maxHeartbeats 1000000 in
theorem resolveCollision_free (h : Int) (bs : ℚ) (bm : List Nat)
    (x y nx ny vx vy : ℚ) (cx cy ncx ncy : Int)
    (hx : pyInt (x / GRID_MULTIPLIER) = cx) (hy : pyInt (y / GRID_MULTIPLIER) = cy)
    (hnx : pyInt (nx / GRID_MULTIPLIER) = ncx) (hny : pyInt (ny / GRID_MULTIPLIER) = ncy)
    (hcx0 : 0 ≤ cx) (hcx32 : cx < 32) (hncx0 : 0 ≤ ncx) (hncx32 : ncx < 32)
    (hcy0 : 0 ≤ cy) (hcyh : cy < h) (hncy0 : 0 ≤ ncy) (hncyh : ncy < h)
    (hdxl : cx - 1 ≤ ncx) (hdxu : ncx ≤ cx + 1) (hdyl : cy - 1 ≤ ncy) (hdyu : ncy ≤ cy + 1)
    (hlen : h ≤ (bm.length : Int)) :
    ∃ x2 y2 vx2 vy2,
      resolveCollision 32 bs bm x y nx ny vx vy (cy * 32 + cx) (ncy * 32 + ncx)
        = Except.ok (x2, y2, vx2, vy2) ∧
      (x2 = x ∨ x2 = nx) ∧ (y2 = y ∨ y2 = ny) ∧
      (vx2 = vx ∨ vx2 = bounce bs vx) ∧ (vy2 = vy ∨ vy2 = bounce bs vy) ∧
      ((pyInt (x2 / GRID_MULTIPLIER), pyInt (y2 / GRID_MULTIPLIER)) = (cx, cy) ∨
        cellSet bm (pyInt (x2 / GRID_MULTIPLIER), pyInt (y2 / GRID_MULTIPLIER)) = false) := by
  have hnylen : pyInt (ny / GRID_MULTIPLIER) < (bm.length : Int) := by rw [hny]; omega
  have hny0q : 0 ≤ pyInt (ny / GRID_MULTIPLIER) := by rw [hny]; exact hncy0
  have hylen : pyInt (y / GRID_MULTIPLIER) < (bm.length : Int) := by rw [hy]; omega
  have hy0q : 0 ≤ pyInt (y / GRID_MULTIPLIER) := by rw [hy]; exact hcy0
  have hgpn := get_pixel_ok bm (nx / GRID_MULTIPLIER) (ny / GRID_MULTIPLIER) hny0q hnylen
  rw [hnx, hny] at hgpn
  have hgpxy := get_pixel_ok bm (nx / GRID_MULTIPLIER) (y / GRID_MULTIPLIER) hy0q hylen
  rw [hnx, hy] at hgpxy
  have hgpyx := get_pixel_ok bm (x / GRID_MULTIPLIER) (ny / GRID_MULTIPLIER) hny0q hnylen
  rw [hx, hny] at hgpyx
  by_cases heq : (cy * 32 + cx : Int) = ncy * 32 + ncx
  · have hceq : ncx = cx ∧ ncy = cy := by omega
    refine ⟨nx, ny, vx, vy, ?_, Or.inr rfl, Or.inr rfl, Or.inl rfl, Or.inl rfl, Or.inl ?_⟩
    · simp only [resolveCollision, if_neg (not_not_intro heq)]
    · rw [hnx, hny, hceq.1, hceq.2]
  · by_cases hocc : ((bm.getD ncy.toNat 0) &&& (1 <<< ((ncx % 32).toNat))) = 0
    · refine ⟨nx, ny, vx, vy, ?_, Or.inr rfl, Or.inr rfl, Or.inl rfl, Or.inl rfl, Or.inr ?_⟩
      · simp only [resolveCollision, if_pos heq, hgpn, if_neg (not_not_intro hocc)]
      · rw [hnx, hny]
        exact cellSet_false_of_and_zero bm ncx ncy hncx0 hncx32 hocc
    · have habs := pyAbsI_cases ((ncy * 32 + ncx) - (cy * 32 + cx))
      by_cases hd1 : pyAbsI ((ncy * 32 + ncx) - (cy * 32 + cx)) = 1
      · have hcyeq : ncy = cy := by rcases habs with he | he <;> rw [he] at hd1 <;> omega
        refine ⟨x, ny, bounce bs vx, vy, ?_, Or.inl rfl, Or.inr rfl, Or.inr rfl, Or.inl rfl,
          Or.inl ?_⟩
        · simp only [resolveCollision, if_pos heq, hgpn, if_pos hocc, hd1, if_pos rfl, if_true]
        · rw [hx, hny, hcyeq]
      · by_cases hd32 : pyAbsI ((ncy * 32 + ncx) - (cy * 32 + cx)) = 32
        · have hcxeq : ncx = cx := by rcases habs with he | he <;> rw [he] at hd32 <;> omega
          refine ⟨nx, y, vx, bounce bs vy, ?_, Or.inr rfl, Or.inl rfl, Or.inl rfl, Or.inr rfl,
            Or.inl ?_⟩
          · simp only [resolveCollision, if_pos heq, hgpn, if_pos hocc, if_neg hd1, hd32,
              if_pos rfl, if_true]
            norm_num
          · rw [hnx, hy, hcxeq]
        · by_cases hvv : pyAbs vy ≤ pyAbs vx
          · by_cases hv1 : ((bm.getD cy.toNat 0) &&& (1 <<< ((ncx % 32).toNat))) = 0
            · refine ⟨nx, y, vx, bounce bs vy, ?_, Or.inr rfl, Or.inl rfl, Or.inl rfl,
                Or.inr rfl, Or.inr ?_⟩
              · simp only [resolveCollision, if_pos heq, hgpn, if_pos hocc, if_neg hd1,
                  if_neg hd32, if_pos hvv, hgpxy, if_pos hv1]
              · rw [hnx, hy]
                exact cellSet_false_of_and_zero bm ncx cy hncx0 hncx32 hv1
            · by_cases hv2 : ((bm.getD ncy.toNat 0) &&& (1 <<< ((cx % 32).toNat))) = 0
              · refine ⟨x, ny, bounce bs vx, vy, ?_, Or.inl rfl, Or.inr rfl, Or.inr rfl,
                  Or.inl rfl, Or.inr ?_⟩
                · simp only [resolveCollision, if_pos heq, hgpn, if_pos hocc, if_neg hd1,
                    if_neg hd32, if_pos hvv, hgpxy, if_neg hv1, hgpyx, if_pos hv2]
                · rw [hx, hny]
                  exact cellSet_false_of_and_zero bm cx ncy hcx0 hcx32 hv2
              · refine ⟨x, y, bounce bs vx, bounce bs vy, ?_, Or.inl rfl, Or.inl rfl,
                  Or.inr rfl, Or.inr rfl, Or.inl ?_⟩
                · simp only [resolveCollision, if_pos heq, hgpn, if_pos hocc, if_neg hd1,
                    if_neg hd32, if_pos hvv, hgpxy, if_neg hv1, hgpyx, if_neg hv2]
                · rw [hx, hy]
          · by_cases hv1 : ((bm.getD ncy.toNat 0) &&& (1 <<< ((cx % 32).toNat))) = 0
            · refine ⟨x, ny, bounce bs vx, vy, ?_, Or.inl rfl, Or.inr rfl, Or.inr rfl,
                Or.inl rfl, Or.inr ?_⟩
              · simp only [resolveCollision, if_pos heq, hgpn, if_pos hocc, if_neg hd1,
                  if_neg hd32, if_neg hvv, hgpyx, if_pos hv1]
              · rw [hx, hny]
                exact cellSet_false_of_and_zero bm cx ncy hcx0 hcx32 hv1
            · by_cases hv2 : ((bm.getD cy.toNat 0) &&& (1 <<< ((ncx % 32).toNat))) = 0
              · refine ⟨nx, y, vx, bounce bs vy, ?_, Or.inr rfl, Or.inl rfl, Or.inl rfl,
                  Or.inr rfl, Or.inr ?_⟩
                · simp only [resolveCollision, if_pos heq, hgpn, if_pos hocc, if_neg hd1,
                    if_neg hd32, if_neg hvv, hgpyx, if_neg hv1, hgpxy, if_pos hv2]
                · rw [hnx, hy]
                  exact cellSet_false_of_and_zero bm ncx cy hncx0 hncx32 hv2
              · refine ⟨x, y, bounce bs vx, bounce bs vy, ?_, Or.inl rfl, Or.inl rfl,
                  Or.inr rfl, Or.inr rfl, Or.inl ?_⟩
                · simp only [resolveCollision, if_pos heq, hgpn, if_pos hocc, if_neg hd1,
                    if_neg hd32, if_neg hvv, hgpyx, if_neg hv1, hgpxy, if_neg hv2]
                · rw [hx, hy]

set_option maxHeartbeats 1600000 in
theorem posStep_Inv32 (h : Int) (pw ph : ℚ) (bm : List Nat) (A B : List Particle) (p : Particle)
    (hh : 32 ≤ h)
    (hpw : pw = ((32 : Int) : ℚ) * GRID_MULTIPLIER - GRID_MULTIPLIER)
    (hph : ph = (h : ℚ) * GRID_MULTIPLIER - GRID_MULTIPLIER)
    (hlen : h ≤ (bm.length : Int))
    (hwords : ∀ w ∈ bm, w < 4294967296)
    (hb : inBounds pw ph p) (hvb : velBound p)
    (hrel : BitRel h bm (A ++ p :: B)) :
    ∃ p2 bm2, posStep 32 pw ph (1/2) bm p = Except.ok (p2, bm2) ∧
      bm2.length = bm.length ∧ (∀ w ∈ bm2, w < 4294967296) ∧
      inBounds pw ph p2 ∧ |p2.vx| ≤ |p.vx| ∧ |p2.vy| ≤ |p.vy| ∧
      BitRel h bm2 (A ++ p2 :: B) := by
  obtain ⟨hx0, hxw, hy0, hyh⟩ := hb
  obtain ⟨hvx, hvy⟩ := hvb
  have hxc := pyInt_div_bounds hx0 (le_of_le_of_eq hxw hpw)
  have hyc := pyInt_div_bounds hy0 (le_of_le_of_eq hyh hph)
  have hpw0 : 0 ≤ pw := by
    rw [hpw]
    push_cast
    norm_num [GRID_MULTIPLIER]
  have hph0 : 0 ≤ ph := by
    rw [hph]
    have h1 : (1 : ℚ) ≤ (h : ℚ) := by exact_mod_cast (by omega : (1 : Int) ≤ h)
    have hG : GRID_MULTIPLIER = (256 : ℚ) := rfl
    nlinarith
  obtain ⟨ha0, haw, hav⟩ := clampAxis_out (1/2) pw (p.x + p.vx) p.vx hpw0
  obtain ⟨hb0, hbh, hbv⟩ := clampAxis_out (1/2) ph (p.y + p.vy) p.vy hph0
  have hnxc := pyInt_div_bounds ha0 (le_of_le_of_eq haw hpw)
  have hnyc := pyInt_div_bounds hb0 (le_of_le_of_eq hbh hph)
  have hdx := clampAxis_cell_diff (1/2) pw 32 (by norm_num) hpw p.x p.vx hx0 hxw hvx
  have hdy := clampAxis_cell_diff (1/2) ph h (by omega) hph p.y p.vy hy0 hyh hvy
  obtain ⟨x2, y2, vx2, vy2, hres, hx2, hy2, hvx2, hvy2, hfree⟩ :=
    resolveCollision_free h (1/2) bm p.x p.y
      (clampAxis (1/2) pw (p.x + p.vx) p.vx).1 (clampAxis (1/2) ph (p.y + p.vy) p.vy).1
      (clampAxis (1/2) pw (p.x + p.vx) p.vx).2 (clampAxis (1/2) ph (p.y + p.vy) p.vy).2
      (pyInt (p.x / GRID_MULTIPLIER)) (pyInt (p.y / GRID_MULTIPLIER))
      (pyInt ((clampAxis (1/2) pw (p.x + p.vx) p.vx).1 / GRID_MULTIPLIER))
      (pyInt ((clampAxis (1/2) ph (p.y + p.vy) p.vy).1 / GRID_MULTIPLIER))
      rfl rfl rfl rfl
      hxc.1 (by omega) hnxc.1 (by omega)
      hyc.1 (by omega) hnyc.1 (by omega)
      hdx.1 hdx.2 hdy.1 hdy.2
      hlen
  have hylen : pyInt (p.y / GRID_MULTIPLIER) < (bm.length : Int) := by omega
  have hclear := clear_pixel_ok bm (p.x / GRID_MULTIPLIER) (p.y / GRID_MULTIPLIER) hyc.1 hylen
  have hx2cell : pyInt (x2 / GRID_MULTIPLIER) = pyInt (p.x / GRID_MULTIPLIER) ∨
      pyInt (x2 / GRID_MULTIPLIER)
        = pyInt ((clampAxis (1/2) pw (p.x + p.vx) p.vx).1 / GRID_MULTIPLIER) := by
    rcases hx2 with h2 | h2
    · exact Or.inl (by rw [h2])
    · exact Or.inr (by rw [h2])
  have hy2cell : pyInt (y2 / GRID_MULTIPLIER) = pyInt (p.y / GRID_MULTIPLIER) ∨
      pyInt (y2 / GRID_MULTIPLIER)
        = pyInt ((clampAxis (1/2) ph (p.y + p.vy) p.vy).1 / GRID_MULTIPLIER) := by
    rcases hy2 with h2 | h2
    · exact Or.inl (by rw [h2])
    · exact Or.inr (by rw [h2])
  have hx2r : 0 ≤ pyInt (x2 / GRID_MULTIPLIER) ∧ pyInt (x2 / GRID_MULTIPLIER) ≤ 32 - 1 := by
    rcases hx2cell with h2 | h2 <;> rw [h2]
    · exact hxc
    · exact hnxc
  have hy2r : 0 ≤ pyInt (y2 / GRID_MULTIPLIER) ∧ pyInt (y2 / GRID_MULTIPLIER) ≤ h - 1 := by
    rcases hy2cell with h2 | h2 <;> rw [h2]
    · exact hyc
    · exact hnyc
  have hsetok := set_pixel_ok
    (bm.set (pyInt (p.y / GRID_MULTIPLIER)).toNat
      ((bm.getD (pyInt (p.y / GRID_MULTIPLIER)).toNat 0) &&&
        (4294967295 ^^^ (1 <<< ((pyInt (p.x / GRID_MULTIPLIER)) % 32).toNat))))
    (x2 / GRID_MULTIPLIER) (y2 / GRID_MULTIPLIER) hy2r.1
    (by rw [List.length_set]; omega)
  unfold posStep
  simp only [hres, hclear, hsetok]
  refine ⟨_, _, rfl, by rw [List.length_set, List.length_set], ?_, ?_, ?_, ?_, ?_⟩
  · refine words_lt_setbit _ _ (by omega) (words_lt_clear _ _ hwords)
  · show inBounds pw ph (Particle.mk x2 y2 vx2 vy2 p.c)
    refine ⟨?_, ?_, ?_, ?_⟩
    · rcases hx2 with h2 | h2 <;> subst h2
      · exact hx0
      · exact ha0
    · rcases hx2 with h2 | h2 <;> subst h2
      · exact hxw
      · exact haw
    · rcases hy2 with h2 | h2 <;> subst h2
      · exact hy0
      · exact hb0
    · rcases hy2 with h2 | h2 <;> subst h2
      · exact hyh
      · exact hbh
  · show |vx2| ≤ |p.vx|
    rcases hvx2 with h2 | h2 <;> subst h2 <;> rcases hav with h3 | h3 <;> rw [h3] <;>
      first
        | exact le_refl _
        | exact abs_bounce_half _
        | exact le_trans (abs_bounce_half _) (abs_bounce_half _)
  · show |vy2| ≤ |p.vy|
    rcases hvy2 with h2 | h2 <;> subst h2 <;> rcases hbv with h3 | h3 <;> rw [h3] <;>
      first
        | exact le_refl _
        | exact abs_bounce_half _
        | exact le_trans (abs_bounce_half _) (abs_bounce_half _)
  · show BitRel h _ (A ++ Particle.mk x2 y2 vx2 vy2 p.c :: B)
    refine BitRel_move h bm _ _ A B p (Particle.mk x2 y2 vx2 vy2 p.c)
      (pyInt (p.x / GRID_MULTIPLIER), pyInt (p.y / GRID_MULTIPLIER))
      (pyInt (x2 / GRID_MULTIPLIER), pyInt (y2 / GRID_MULTIPLIER))
      rfl rfl ⟨hxc.1, by omega, hyc.1, by omega⟩ ⟨hx2r.1, by omega, hy2r.1, by omega⟩
      hlen hrel hfree rfl rfl

theorem posList_Inv32 (h : Int) (pw ph : ℚ)
    (hh : 32 ≤ h)
    (hpw : pw = ((32 : Int) : ℚ) * GRID_MULTIPLIER - GRID_MULTIPLIER)
    (hph : ph = (h : ℚ) * GRID_MULTIPLIER - GRID_MULTIPLIER) :
    ∀ (ps A : List Particle) (bm : List Nat),
      h ≤ (bm.length : Int) → (∀ w ∈ bm, w < 4294967296) →
      (∀ p ∈ ps, inBounds pw ph p ∧ velBound p) →
      BitRel h bm (A ++ ps) →
      ∃ ps2 bm2, posList 32 pw ph (1/2) bm ps = Except.ok (ps2, bm2) ∧
        bm2.length = bm.length ∧ (∀ w ∈ bm2, w < 4294967296) ∧
        (∀ q ∈ ps2, inBounds pw ph q ∧ velBound q) ∧
        BitRel h bm2 (A ++ ps2) := by
  intro ps
  induction ps with
  | nil =>
    intro A bm hlen hwords _ hrel
    exact ⟨[], bm, rfl, rfl, hwords, by intro q hq; simp at hq, hrel⟩
  | cons p rest ih =>
    intro A bm hlen hwords H hrel
    obtain ⟨hbp, hvp⟩ := H p (List.mem_cons_self p rest)
    obtain ⟨p2, bmS, hstep, hlenS, hwordsS, hb2, hvx2, hvy2, hrelS⟩ :=
      posStep_Inv32 h pw ph bm A rest p hh hpw hph hlen hwords hbp hvp hrel
    have hvb2 : velBound p2 := ⟨le_trans hvx2 hvp.1, le_trans hvy2 hvp.2⟩
    have hrelS2 : BitRel h bmS ((A ++ [p2]) ++ rest) := by
      rw [List.append_assoc]
      exact hrelS
    obtain ⟨ps2, bm2, hrest, hlen2, hwords2, H2, hrel2⟩ :=
      ih (A ++ [p2]) bmS (by rw [hlenS]; exact hlen) hwordsS
        (fun r hr => H r (List.mem_cons_of_mem p hr)) hrelS2
    refine ⟨p2 :: ps2, bm2, ?_, by rw [hlen2, hlenS], hwords2, ?_, ?_⟩
    · unfold posList
      simp only [hstep, hrest]
    · intro q hq
      rcases List.mem_cons.mp hq with h1 | h2
      · subst h1
        exact ⟨hb2, hvb2⟩
      · exact H2 q h2
    · have hassoc : A ++ p2 :: ps2 = (A ++ [p2]) ++ ps2 := by
        rw [List.append_assoc]
        rfl
      rw [hassoc]
      exact hrel2

theorem cellOf_velUpdate (ax ay : ℚ) (jx jy : Int) (p : Particle) :
    cellOf (velUpdate ax ay jx jy p) = cellOf p := rfl

theorem occCount_velList (ax ay : ℚ) (jx jy : Nat → Int) :
    ∀ (i : Nat) (ps : List Particle) (c : Int × Int),
      occCount (velList ax ay jx jy i ps) c = occCount ps c := by
  intro i ps
  induction ps generalizing i with
  | nil => intro c; rfl
  | cons p rest ih =>
    intro c
    unfold velList
    rw [occCount_cons, occCount_cons, ih (i + 1), cellOf_velUpdate]

theorem BitRel_congr (h : Int) (bm : List Nat) (ps ps2 : List Particle)
    (hocc : ∀ c, occCount ps2 c = occCount ps c) (hrel : BitRel h bm ps) :
    BitRel h bm ps2 := by
  intro c hc
  rw [hocc c]
  exact hrel c hc

theorem tick_Inv32 (h : Int) (s : Simulation) (jx jy : Nat → Int)
    (hh : 32 ≤ h) (hs : Inv32 h s) :
    ∃ s2, tick s jx jy = Except.ok s2 ∧ Inv32 h s2 := by
  obtain ⟨hB, hwords, hrel⟩ := hs
  obtain ⟨sg, sw, sh, spw, sph, sgs, sbs, sst, sbm, sps⟩ := s
  obtain ⟨hsw, hsh, hspw, hsph, hsbs, hslen, hps⟩ := hB
  simp only at hsw hsh hspw hsph hsbs hslen hps hwords hrel
  subst hsw
  subst hsh
  subst hspw
  subst hsph
  subst hsbs
  have hvel := velList_bounds (sg.1 * sgs - pyAbs (sg.2.2 * sgs) / 8)
    (sg.2.1 * sgs - pyAbs (sg.2.2 * sgs) / 8) jx jy
    (((32 : Int) : ℚ) * GRID_MULTIPLIER - GRID_MULTIPLIER)
    ((sh : ℚ) * GRID_MULTIPLIER - GRID_MULTIPLIER) 0 sps (fun r hr => (hps r hr).1)
  have hrelV : BitRel sh sbm (velList (sg.1 * sgs - pyAbs (sg.2.2 * sgs) / 8)
      (sg.2.1 * sgs - pyAbs (sg.2.2 * sgs) / 8) jx jy 0 sps) :=
    BitRel_congr sh sbm sps _
      (fun c => occCount_velList (sg.1 * sgs - pyAbs (sg.2.2 * sgs) / 8)
        (sg.2.1 * sgs - pyAbs (sg.2.2 * sgs) / 8) jx jy 0 sps c) hrel
  obtain ⟨ps2, bm2, hrun, hlen2, hwords2, H2, hrel2⟩ :=
    posList_Inv32 sh (((32 : Int) : ℚ) * GRID_MULTIPLIER - GRID_MULTIPLIER)
      ((sh : ℚ) * GRID_MULTIPLIER - GRID_MULTIPLIER) hh rfl rfl
      (velList (sg.1 * sgs - pyAbs (sg.2.2 * sgs) / 8)
        (sg.2.1 * sgs - pyAbs (sg.2.2 * sgs) / 8) jx jy 0 sps)
      [] sbm hslen hwords
      (fun q hq => ⟨(hvel q hq).1, (hvel q hq).2.1, (hvel q hq).2.2⟩) hrelV
  refine ⟨⟨sg, 32, sh, ((32 : Int) : ℚ) * GRID_MULTIPLIER - GRID_MULTIPLIER,
    ((sh : ℚ) * GRID_MULTIPLIER - GRID_MULTIPLIER), sgs, 1/2, sst + 1, bm2, ps2⟩, ?_, ?_⟩
  · unfold tick
    simp only [hrun]
  · exact ⟨⟨rfl, rfl, rfl, rfl, rfl, by rw [hlen2]; exact hslen, fun p hp => H2 p hp⟩,
      hwords2, hrel2⟩

theorem BitRel_add (h : Int) (bm bm2 : List Nat) (ps : List Particle) (p : Particle)
    (t : Int × Int) (ht : cellOf p = t) (htg : inGrid h t)
    (hlen : h ≤ (bm.length : Int))
    (hrel : BitRel h bm ps)
    (hfree : cellSet bm t = false)
    (hbm2 : bm2 = bm.set t.2.toNat ((bm.getD t.2.toNat 0) ||| (1 <<< ((t.1 % 32).toNat)))) :
    BitRel h bm2 (ps ++ [p]) := by
  obtain ⟨htg1, htg2, htg3, htg4⟩ := htg
  have hocc0 : occCount ps t = 0 := by
    have h1 := hrel t ⟨htg1, htg2, htg3, htg4⟩
    by_contra hne
    have h2 : occCount ps t = 1 := by omega
    have hb := h1.1.mpr h2
    rw [hb] at hfree
    exact absurd hfree (by simp)
  intro c hcg
  obtain ⟨hcg1, hcg2, hcg3, hcg4⟩ := hcg
  have e2 : cellSet bm2 c = (cellSet bm c || decide (c = t)) := by
    rw [hbm2]
    exact cellSet_set_or bm t c htg1 htg2 htg3 (by omega) hcg1 hcg3
  have hcnt : occCount (ps ++ [p]) c = occCount ps c + (if t = c then 1 else 0) := by
    rw [occCount_append, occCount_cons, ht]
    have h0 : occCount ([] : List Particle) c = 0 := rfl
    rw [h0]
    omega
  rw [hcnt, e2]
  have hold := hrel c ⟨hcg1, hcg2, hcg3, hcg4⟩
  by_cases hct : c = t
  · subst hct
    rw [if_pos rfl, hfree, hocc0]
    simp
  · have hd : decide (c = t) = false := by simp [hct]
    have hind : (if t = c then (1 : Nat) else 0) = 0 := by
      rw [if_neg]
      intro hcon
      exact hct hcon.symm
    rw [hd, hind, Bool.or_false]
    constructor
    · constructor
      · intro hb
        have := hold.1.mp hb
        omega
      · intro hc2
        exact hold.1.mpr (by omega)
    · have := hold.2
      omega

theorem cellOf_seedParticle (c : Int × Int) : cellOf (seedParticle c) = c := by
  have hG : GRID_MULTIPLIER = (256 : ℚ) := rfl
  have h1 : ((c.1 : ℚ) * GRID_MULTIPLIER) / GRID_MULTIPLIER = ((c.1 : Int) : ℚ) := by
    rw [hG]
    field_simp
  have h2 : ((c.2 : ℚ) * GRID_MULTIPLIER) / GRID_MULTIPLIER = ((c.2 : Int) : ℚ) := by
    rw [hG]
    field_simp
  show (pyInt ((c.1 : ℚ) * GRID_MULTIPLIER / GRID_MULTIPLIER),
    pyInt ((c.2 : ℚ) * GRID_MULTIPLIER / GRID_MULTIPLIER)) = c
  rw [h1, h2, pyInt_intCast, pyInt_intCast]

theorem addSeeds_Inv32 (h : Int) :
    ∀ (L : List (Int × Int)) (s : Simulation),
      (∀ c ∈ L, inGrid h c ∧ cellSet s.bitmap c = false ∧ occCount s.particles c = 0) →
      List.Pairwise (fun a b => a ≠ b) L →
      h ≤ (s.bitmap.length : Int) →
      (∀ w ∈ s.bitmap, w < 4294967296) →
      BitRel h s.bitmap s.particles →
      ∃ s2, addSeeds s L = Except.ok s2 ∧
        s2.bitmap.length = s.bitmap.length ∧
        (∀ w ∈ s2.bitmap, w < 4294967296) ∧
        BitRel h s2.bitmap s2.particles := by
  intro L
  induction L with
  | nil =>
    intro s _ _ _ hwords hrel
    exact ⟨s, rfl, rfl, hwords, hrel⟩
  | cons c0 rest ih =>
    intro s H hpair hlen hwords hrel
    obtain ⟨hg0, hfree0, hocc0⟩ := H c0 (List.mem_cons_self c0 rest)
    obtain ⟨hg1, hg2, hg3, hg4⟩ := hg0
    obtain ⟨hne, hpairR⟩ := List.pairwise_cons.mp hpair
    have hx : pyInt ((seedParticle c0).x / GRID_MULTIPLIER) = c0.1 :=
      congrArg Prod.fst (cellOf_seedParticle c0)
    have hy : pyInt ((seedParticle c0).y / GRID_MULTIPLIER) = c0.2 :=
      congrArg Prod.snd (cellOf_seedParticle c0)
    have hset := set_pixel_ok s.bitmap ((seedParticle c0).x / GRID_MULTIPLIER)
      ((seedParticle c0).y / GRID_MULTIPLIER) (by rw [hy]; exact hg3) (by rw [hy]; omega)
    rw [hx, hy] at hset
    have hs1 : add_particle s (seedParticle c0)
        = Except.ok (Simulation.mk s.gravity s.width s.height s.pwidth s.pheight
            s.grav_scale s.bounce_scale s.simtime
            (s.bitmap.set c0.2.toNat ((s.bitmap.getD c0.2.toNat 0) |||
              (1 <<< ((c0.1 % 32).toNat))))
            (s.particles ++ [seedParticle c0])) := by
      unfold add_particle
      simp only [hset]
    have hbitN : ∀ c ∈ rest, cellSet (s.bitmap.set c0.2.toNat ((s.bitmap.getD c0.2.toNat 0) |||
        (1 <<< ((c0.1 % 32).toNat)))) c = false := by
      intro c hc
      obtain ⟨hcg, hcf, hco⟩ := H c (List.mem_cons_of_mem c0 hc)
      rw [cellSet_set_or s.bitmap c0 c hg1 hg2 hg3 (by omega) hcg.1 hcg.2.2.1, hcf]
      have hd : decide (c = c0) = false := by
        simp only [decide_eq_false_iff_not]
        intro hcon
        exact hne c hc hcon.symm
      rw [hd]
      rfl
    have hoccN : ∀ c ∈ rest, occCount (s.particles ++ [seedParticle c0]) c = 0 := by
      intro c hc
      obtain ⟨hcg, hcf, hco⟩ := H c (List.mem_cons_of_mem c0 hc)
      rw [occCount_append, occCount_cons]
      have h0 : occCount ([] : List Particle) c = 0 := rfl
      rw [h0, cellOf_seedParticle]
      have hif : (if c0 = c then (1 : Nat) else 0) = 0 := by
        rw [if_neg]
        intro hcon
        exact hne c hc hcon
      omega
    have hrelN : BitRel h (s.bitmap.set c0.2.toNat ((s.bitmap.getD c0.2.toNat 0) |||
        (1 <<< ((c0.1 % 32).toNat)))) (s.particles ++ [seedParticle c0]) :=
      BitRel_add h s.bitmap _ s.particles (seedParticle c0) c0 (cellOf_seedParticle c0)
        ⟨hg1, hg2, hg3, hg4⟩ hlen hrel hfree0 rfl
    have hwordsN : ∀ w ∈ s.bitmap.set c0.2.toNat ((s.bitmap.getD c0.2.toNat 0) |||
        (1 <<< ((c0.1 % 32).toNat))), w < 4294967296 :=
      words_lt_setbit _ _ (by omega) hwords
    have hlenN : h ≤ (((s.bitmap.set c0.2.toNat ((s.bitmap.getD c0.2.toNat 0) |||
        (1 <<< ((c0.1 % 32).toNat)))).length : Nat) : Int) := by
      rw [List.length_set]
      exact hlen
    obtain ⟨s2, hrun2, hlen2, hwords2, hrel2⟩ :=
      ih (Simulation.mk s.gravity s.width s.height s.pwidth s.pheight
            s.grav_scale s.bounce_scale s.simtime
            (s.bitmap.set c0.2.toNat ((s.bitmap.getD c0.2.toNat 0) |||
              (1 <<< ((c0.1 % 32).toNat))))
            (s.particles ++ [seedParticle c0]))
        (fun c hc => ⟨(H c (List.mem_cons_of_mem c0 hc)).1, hbitN c hc, hoccN c hc⟩)
        hpairR hlenN hwordsN hrelN
    refine ⟨s2, ?_, ?_, hwords2, hrel2⟩
    · unfold addSeeds
      simp only [hs1]
      exact hrun2
    · rw [hlen2]
      exact List.length_set s.bitmap _ _

theorem create_Inv32 (h : Int) (hh : 32 ≤ h) (hmod : h % 32 = 0) :
    ∃ s, create 32 h = Except.ok s ∧ Inv32 h s := by
  have hcell0 : ∀ c : Int × Int,
      cellSet (List.replicate (h * ((32 : Int) / 32)).toNat 0) c = false := by
    intro c
    unfold cellSet
    have hz : (List.replicate (h * ((32 : Int) / 32)).toNat (0 : Nat)).getD c.2.toNat 0 = 0 := by
      rcases Nat.lt_or_ge c.2.toNat (h * ((32 : Int) / 32)).toNat with hlt | hge
      · have hlt2 : c.2.toNat <
            (List.replicate (h * ((32 : Int) / 32)).toNat (0 : Nat)).length := by
          rw [List.length_replicate]
          exact hlt
        rw [List.getD_eq_getElem _ 0 hlt2]
        simp
      · rw [List.getD_eq_default _ _ (by rw [List.length_replicate]; omega)]
    rw [hz]
    exact Nat.zero_testBit _
  have hwords0 : ∀ w ∈ List.replicate (h * ((32 : Int) / 32)).toNat (0 : Nat),
      w < 4294967296 := by
    intro w hw
    rw [List.eq_of_mem_replicate hw]
    norm_num
  have hrel0 : BitRel h (List.replicate (h * ((32 : Int) / 32)).toNat 0) [] := by
    intro c hc
    rw [hcell0 c]
    simp [occCount]
  have hlen0 : h ≤ ((List.replicate (h * ((32 : Int) / 32)).toNat (0 : Nat)).length : Int) := by
    rw [List.length_replicate]
    omega
  have hnodup : List.Pairwise (fun a b => a ≠ b) seedCells := by
    have hnd : seedCells.Nodup := by decide
    exact hnd
  obtain ⟨s2, hrun, hlen2, hwords2, hrel2⟩ :=
    addSeeds_Inv32 h seedCells
      (Simulation.mk (0, 0, 0) 32 h (((32 : Int) : ℚ) * GRID_MULTIPLIER - GRID_MULTIPLIER)
        ((h : ℚ) * GRID_MULTIPLIER - GRID_MULTIPLIER) 1 (1/2) 0
        (List.replicate (h * ((32 : Int) / 32)).toNat 0) [])
      (fun c hc => by
        obtain ⟨h1, h2, h3, h4⟩ := seedCells_range c hc
        exact ⟨⟨h1, by omega, h3, by omega⟩, hcell0 c, rfl⟩)
      hnodup hlen0 hwords0 hrel0
  have hcreate : create 32 h = Except.ok s2 := by
    unfold create
    rw [if_neg (by push_neg; exact ⟨by decide, hmod⟩)]
    simp only [if_neg (show ¬ h * ((32 : Int) / 32) < 0 by omega)]
    unfold init_particles
    exact hrun
  have hB := (create_ok (by norm_num) (by omega) hcreate).2.2
  exact ⟨s2, hcreate, hB, hwords2, hrel2⟩

theorem iterSim_Inv32 (h : Int) (G : Nat → ℚ × ℚ × ℚ) (JX JY : Nat → Nat → Int)
    (hh : 32 ≤ h) (hmod : h % 32 = 0) :
    ∀ n : Nat, ∃ s, iterSim 32 h G JX JY n = Except.ok s ∧ Inv32 h s := by
  intro n
  induction n with
  | zero => exact create_Inv32 h hh hmod
  | succ n ih =>
    obtain ⟨s1, hit, hs1⟩ := ih
    have hsg : Inv32 h ({ s1 with gravity := G n }) := by
      obtain ⟨⟨b1, b2, b3, b4, b5, b6, b7⟩, hw, hr⟩ := hs1
      exact ⟨⟨b1, b2, b3, b4, b5, b6, b7⟩, hw, hr⟩
    obtain ⟨s2, htick, hs2⟩ := tick_Inv32 h ({ s1 with gravity := G n }) (JX n) (JY n) hh hsg
    refine ⟨s2, ?_, hs2⟩
    unfold iterSim
    simp only [hit]
    exact htick

/-- C3 (amended to width 32): for an engine created as `create 32 h` with
`h` a positive multiple of 32 and evolved by any number of ticks under any
per-tick gravity and any jitter draws, every run succeeds and, at every
in-range cell `(cx, cy)`, the source's own `get_pixel` reads a nonzero
value exactly when one particle's cell (computed the way `tick` computes
it, `int(coord / GRID_MULTIPLIER)`) equals `(cx, cy)`; and no cell is ever
occupied by two particles.  (For widths above 32 the correspondence
already fails at construction, as the width-64 counterexample shows.) -/
theorem C3_width32_bijection (h : Int) (G : Nat → ℚ × ℚ × ℚ) (JX JY : Nat → Nat → Int)
    (n : Nat) (cx cy : Int)
    (hh : 32 ≤ h) (hmod : h % 32 = 0)
    (hcx0 : 0 ≤ cx) (hcx32 : cx < 32) (hcy0 : 0 ≤ cy) (hcyh : cy < h) :
    (iterSim 32 h G JX JY n).isOk = true ∧
    (get_pixel (okOr (iterSim 32 h G JX JY n) dfltSim).bitmap (cx : ℚ) (cy : ℚ)
        ≠ Except.ok 0
      ↔ occCount (okOr (iterSim 32 h G JX JY n) dfltSim).particles (cx, cy) = 1) ∧
    occCount (okOr (iterSim 32 h G JX JY n) dfltSim).particles (cx, cy) ≤ 1 := by
  obtain ⟨s, hrun, hInv⟩ := iterSim_Inv32 h G JX JY hh hmod n
  have hok : (iterSim 32 h G JX JY n).isOk = true := by
    rw [hrun]
    rfl
  have hs : okOr (iterSim 32 h G JX JY n) dfltSim = s := by
    rw [hrun]
    rfl
  rw [hs]
  obtain ⟨⟨hB1, hB2, hB3, hB4, hB5, hlen, hB7⟩, hwords, hrel⟩ := hInv
  have hpx : pyInt ((cx : Int) : ℚ) = cx := pyInt_intCast cx
  have hpy : pyInt ((cy : Int) : ℚ) = cy := pyInt_intCast cy
  have hgp := get_pixel_ok s.bitmap ((cx : Int) : ℚ) ((cy : Int) : ℚ)
    (by rw [hpy]; exact hcy0) (by rw [hpy]; omega)
  rw [hpx, hpy] at hgp
  have hcs := hrel (cx, cy) ⟨hcx0, hcx32, hcy0, hcyh⟩
  have hne : (get_pixel s.bitmap ((cx : Int) : ℚ) ((cy : Int) : ℚ) ≠ Except.ok 0)
      ↔ cellSet s.bitmap (cx, cy) = true := by
    rw [hgp]
    constructor
    · intro hval
      refine (bit_and_ne_zero _ hcx0 hcx32).mp ?_
      intro h0
      exact hval (by rw [h0])
    · intro hbit hcon
      have hv := Except.ok.inj hcon
      exact (bit_and_ne_zero _ hcx0 hcx32).mpr hbit hv
  refine ⟨hok, ?_, hcs.2⟩
  rw [hne]
  exact hcs.1

/-- C3 witness: one tick of the 32×32 engine under zero gravity and zero
jitter, read at cell `(5, 0)`. -/
theorem C3_width32_bijection_witness :
    (iterSim 32 32 zeroG (fun _ => zeroJ) (fun _ => zeroJ) 1).isOk = true ∧
    (get_pixel (okOr (iterSim 32 32 zeroG (fun _ => zeroJ) (fun _ => zeroJ) 1) dfltSim).bitmap
        (((5 : Int)) : ℚ) (((0 : Int)) : ℚ) ≠ Except.ok 0
      ↔ occCount (okOr (iterSim 32 32 zeroG (fun _ => zeroJ) (fun _ => zeroJ) 1) dfltSim).particles
          ((5 : Int), (0 : Int)) = 1) ∧
    occCount (okOr (iterSim 32 32 zeroG (fun _ => zeroJ) (fun _ => zeroJ) 1) dfltSim).particles
      ((5 : Int), (0 : Int)) ≤ 1 :=
  C3_width32_bijection 32 zeroG (fun _ => zeroJ) (fun _ => zeroJ) 1 5 0
    (by decide) (by decide) (by decide) (by decide) (by decide) (by decide)
